import Mathlib

/-!
Verification of the Excel Data Converter classification-and-extraction engine.

The development shallowly embeds the engine found in `src/index.tsx`:
the keyword-based file-type detector (`detectFileType`), the CSV serializer
(`arrayToCsv`), the date utilities (`excelSerialDateToJSDate`,
`formatDateToYYYYMMDD`) and the per-type extractors (Stores, Store-Items,
Facts, Item-Master v1, Item-Master v2).

Modelling conventions:
* Strings are `List Char` (`Str`), so that all string reasoning is plain
  list reasoning.
* A spreadsheet cell (`Cell`) carries a text, numeric (`Rat`), date
  (epoch milliseconds, `Int`), or boolean payload, or is `null`
  (`cnull`, the reader's `defval`) or `undefined` (`cundef`, the value of a
  missing object property).  JavaScript's value coercions (`String(v)`,
  `Array.prototype.join`, truthiness, `parseInt`, `parseFloat`) are embedded
  as total functions on `Cell` / `Str`.
* The runtime clock and timezone are modelled as a fixed UTC environment:
  local calendar components coincide with UTC components, and the run date
  is passed explicitly where the source reads the process clock.
* JavaScript numbers are modelled as exact rationals; number-to-string
  conversion (`ratToChars`) prints a sign, decimal digits and a decimal
  point (fractional expansions truncated), which is faithful up to the
  floating-point noise the engine never depends on.
-/

set_option maxRecDepth 4000

abbrev Str := List Char

/-- Whitespace characters recognised by JavaScript `trim` / numeric parsing
(the common subset that can occur in spreadsheet text). -/
def isJsWs (c : Char) : Bool :=
  c = ' ' || c = '\t' || c = '\n' || c = '\r'

/-- JavaScript `String.prototype.trim` on `List Char` strings. -/
def jsTrim (s : Str) : Str :=
  ((s.dropWhile isJsWs).reverse.dropWhile isJsWs).reverse

/-- A spreadsheet cell value as delivered by the sheet reader: text, number,
date (epoch milliseconds), boolean, `null` (the reader's `defval`) or
`undefined` (a missing object property / out-of-range array index). -/
inductive Cell where
  | cstr (s : Str)
  | cnum (q : Rat)
  | cdate (ms : Int)
  | cbool (b : Bool)
  | cnull
  | cundef
deriving DecidableEq, Repr

/-- JavaScript `typeof v === 'string'`. -/
def Cell.isStr : Cell → Bool
  | .cstr _ => true
  | _ => false

/-- JavaScript truthiness of a cell value (`if (v)`): the empty string, the
number `0`, `false`, `null` and `undefined` are falsy. -/
def truthy : Cell → Bool
  | .cstr s => !s.isEmpty
  | .cnum q => q ≠ 0
  | .cdate _ => true
  | .cbool b => b
  | .cnull => false
  | .cundef => false

/-- Decimal digit characters. -/
def digitChars : List Char := ['0', '1', '2', '3', '4', '5', '6', '7', '8', '9']

/-- The character for a single decimal digit (values ≥ 10 clamp to `'9'`,
a case that never arises for in-range arguments). -/
def digitChar (n : Nat) : Char := digitChars.getD n '9'

/-- Decimal digits of a natural number, most significant first; fuelled
recursion (the fuel `n + 1` always suffices since `n / 10 < n` for `n ≥ 10`). -/
def natToCharsAux : Nat → Nat → List Char
  | 0, _ => []
  | f + 1, n =>
    if n < 10 then [digitChar n]
    else natToCharsAux f (n / 10) ++ [digitChar (n % 10)]

/-- JavaScript rendering of a natural number. -/
def natToChars (n : Nat) : Str := natToCharsAux (n + 1) n

/-- JavaScript rendering of an integer. -/
def intToChars (i : Int) : Str :=
  if i < 0 then '-' :: natToChars i.natAbs else natToChars i.natAbs

/-- Decimal digits of the fractional part `n / d` (with `n < d`), at most
`fuel` digits, trailing zeros suppressed exactly when the expansion
terminates. -/
def fracChars : Nat → Nat → Nat → List Char
  | 0, _, _ => []
  | f + 1, n, d =>
    if n = 0 then []
    else digitChar (n * 10 / d) :: fracChars f (n * 10 % d) d

/-- JavaScript `String(x)` for a number, modelled over exact rationals: sign,
integer digits and up to 20 fractional digits. -/
def ratToChars (q : Rat) : Str :=
  (if q.num < 0 then ['-'] else []) ++
    natToChars (q.num.natAbs / q.den) ++
    (if q.num.natAbs % q.den = 0 then []
     else '.' :: fracChars 20 (q.num.natAbs % q.den) q.den)

/-- Two-digit zero-padded rendering (`String(n).padStart(2, '0')`). -/
def pad2 (n : Nat) : Str :=
  if n < 10 then '0' :: natToChars n else natToChars n

-- Calendar arithmetic (Howard Hinnant's civil-from-days algorithm), used to
-- model the calendar components JavaScript `Date` exposes.

/-- Calendar date `(year, month, day)` of the day `z` days after 1970-01-01. -/
def civilFromDays (z0 : Int) : Int × Int × Int :=
  let z := z0 + 719468
  let era := Int.fdiv z 146097
  let doe := (z - era * 146097).toNat
  let yoe := (doe - doe / 1460 + doe / 36524 - doe / 146096) / 365
  let doy := doe - (365 * yoe + yoe / 4 - yoe / 100)
  let mp := (5 * doy + 2) / 153
  let d := doy - (153 * mp + 2) / 5 + 1
  let m := if mp < 10 then mp + 3 else mp - 9
  (((yoe : Int) + era * 400) + (if m ≤ 2 then 1 else 0), (m : Int), (d : Int))

/-- Number of days from 1970-01-01 to the civil date `(y, m, d)` (inverse of
`civilFromDays`). -/
def daysFromCivil (y m d : Int) : Int :=
  let y' := y - (if m ≤ 2 then 1 else 0)
  let era := Int.fdiv y' 400
  let yoe := (y' - era * 400).toNat
  let mp := (if m > 2 then m - 3 else m + 9).toNat
  let doy := (153 * mp + 2) / 5 + (d - 1).toNat
  let doe := yoe * 365 + yoe / 4 - yoe / 100 + doy
  era * 146097 + (doe : Int) - 719468

/-- Days in a civil month, accounting for leap years. -/
def daysInMonth (y m : Int) : Int :=
  if m = 2 then
    (if y % 4 = 0 ∧ (y % 100 ≠ 0 ∨ y % 400 = 0) then 29 else 28)
  else if m = 4 ∨ m = 6 ∨ m = 9 ∨ m = 11 then 30
  else 31

/-- Three-letter weekday names in JavaScript `Date.prototype.toString` order,
indexed from Sunday. -/
def weekNames : List Str :=
  ["Sun".toList, "Mon".toList, "Tue".toList, "Wed".toList,
   "Thu".toList, "Fri".toList, "Sat".toList]

/-- Three-letter month names in `Date.prototype.toString` order. -/
def monNames : List Str :=
  ["Jan".toList, "Feb".toList, "Mar".toList, "Apr".toList,
   "May".toList, "Jun".toList, "Jul".toList, "Aug".toList,
   "Sep".toList, "Oct".toList, "Nov".toList, "Dec".toList]

/-- Weekday abbreviation for the weekday index `k` (mod 7). -/
def weekAbbrev (k : Nat) : Str := weekNames.getD (k % 7) []

/-- Month abbreviation for the zero-based month index `k` (mod 12). -/
def monAbbrev (k : Nat) : Str := monNames.getD (k % 12) []

/-- Millisecond count since the epoch, split into day number and
time-of-day milliseconds (flooring, as `Date`'s accessors do). -/
def msToDayTime (ms : Int) : Int × Nat :=
  (Int.fdiv ms 86400000, (Int.emod ms 86400000).toNat)

/-- JavaScript `String(dateValue)` for a `Date`, in the fixed UTC environment:
`"Thu Jan 01 1970 00:00:00 GMT+0000 (Coordinated Universal Time)"`. -/
def dateToChars (ms : Int) : Str :=
  let dt := msToDayTime ms
  let ymd := civilFromDays dt.1
  let rem := dt.2
  weekAbbrev ((Int.emod (dt.1 + 4) 7).toNat) ++ (' ' ::
    (monAbbrev ((ymd.2.1 - 1).toNat) ++ (' ' ::
      (pad2 ymd.2.2.toNat ++ (' ' ::
        (natToChars ymd.1.toNat ++ (' ' ::
          (pad2 (rem / 3600000) ++ (':' ::
            (pad2 (rem % 3600000 / 60000) ++ (':' ::
              (pad2 (rem % 60000 / 1000) ++
                " GMT+0000 (Coordinated Universal Time)".toList))))))))))))

/-- JavaScript `String(v)` applied to a cell value: `null` and `undefined`
render as the words `"null"` / `"undefined"`. -/
def strRender : Cell → Str
  | .cstr s => s
  | .cnum q => ratToChars q
  | .cdate ms => dateToChars ms
  | .cbool b => if b then "true".toList else "false".toList
  | .cnull => "null".toList
  | .cundef => "undefined".toList

/-- Rendering of one cell inside `Array.prototype.join`: `null` and
`undefined` render as the empty string there. -/
def joinRender : Cell → Str
  | .cnull => []
  | .cundef => []
  | c => strRender c

/-- `row.join('|')` over a list of cells. -/
def joinBar : List Cell → Str
  | [] => []
  | [c] => joinRender c
  | c :: rest => joinRender c ++ '|' :: joinBar rest

-- JavaScript numeric parsing.

/-- Rational arithmetic over the normalized `mkRat` constructor.  The core
`Rat` operations are opaque to kernel reduction, so the embedding computes
with these equivalent definitions instead. -/
def rAdd (a b : Rat) : Rat :=
  mkRat (a.num * (b.den : Int) + b.num * (a.den : Int)) (a.den * b.den)

/-- Negation over `mkRat`. -/
def rNeg (a : Rat) : Rat := mkRat (-a.num) a.den

/-- Subtraction over `mkRat`. -/
def rSub (a b : Rat) : Rat := rAdd a (rNeg b)

/-- Multiplication over `mkRat`. -/
def rMul (a b : Rat) : Rat := mkRat (a.num * b.num) (a.den * b.den)

/-- Division over `mkRat` (unused on a zero divisor). -/
def rDiv (a b : Rat) : Rat :=
  mkRat (a.num * (b.den : Int) * (if b.num < 0 then -1 else 1))
    (a.den * b.num.natAbs)

/-- Natural powers over `mkRat`. -/
def rPowNat (a : Rat) : Nat → Rat
  | 0 => mkRat 1 1
  | n + 1 => rMul (rPowNat a n) a

/-- The strict order on rationals, computed from the normalized fields. -/
def rLt (a b : Rat) : Bool := a.num * (b.den : Int) < b.num * (a.den : Int)

/-- Power of ten as a rational, for negative and positive exponents. -/
def tenPow (e : Int) : Rat :=
  if 0 ≤ e then rPowNat (mkRat 10 1) e.toNat
  else rDiv (mkRat 1 1) (rPowNat (mkRat 10 1) (-e).toNat)

/-- Numeric value of a digit string (most significant digit first). -/
def digitsVal (ds : Str) : Nat :=
  ds.foldl (fun acc c => acc * 10 + (c.toNat - '0'.toNat)) 0

/-- JavaScript `parseFloat`: skip leading whitespace, read an optional sign,
integer digits, an optional fraction and an optional well-formed exponent,
ignore anything after; `NaN` (no digits at all) is `none`.  The `Infinity`
literal is not modelled (it never denotes spreadsheet data). -/
def jsParseFloat (s : Str) : Option Rat :=
  let s1 := s.dropWhile isJsWs
  let neg := s1.head? = some '-'
  let s2 := if s1.head? = some '-' ∨ s1.head? = some '+' then s1.tail else s1
  let ip := s2.takeWhile (·.isDigit)
  let s3 := s2.dropWhile (·.isDigit)
  let fp := if s3.head? = some '.' then s3.tail.takeWhile (·.isDigit) else []
  let s4 := if s3.head? = some '.' then (s3.tail.dropWhile (·.isDigit)) else s3
  if ip.isEmpty ∧ fp.isEmpty then none
  else
    let mant : Rat := rAdd (mkRat (digitsVal ip) 1)
      (rDiv (mkRat (digitsVal fp) 1) (rPowNat (mkRat 10 1) fp.length))
    let e : Int :=
      if s4.head? = some 'e' ∨ s4.head? = some 'E' then
        let t := s4.tail
        let eneg := t.head? = some '-'
        let t2 := if t.head? = some '-' ∨ t.head? = some '+' then t.tail else t
        let ed := t2.takeWhile (·.isDigit)
        if ed.isEmpty then 0 else (if eneg then -(digitsVal ed : Int) else (digitsVal ed : Int))
      else 0
    some (rMul (if neg then rNeg mant else mant) (tenPow e))

/-- JavaScript `parseInt(s, 10)`: skip leading whitespace, read an optional
sign and the maximal run of leading decimal digits; `NaN` is `none`. -/
def jsParseInt (s : Str) : Option Int :=
  let s1 := s.dropWhile isJsWs
  let neg := s1.head? = some '-'
  let s2 := if s1.head? = some '-' ∨ s1.head? = some '+' then s1.tail else s1
  let ds := s2.takeWhile (·.isDigit)
  if ds.isEmpty then none
  else some (if neg then -(digitsVal ds : Int) else (digitsVal ds : Int))

/-- JavaScript `s.replace(',', '.')`-style replacement of the first
occurrence of a single character. -/
def replaceFirst (a b : Char) : Str → Str
  | [] => []
  | c :: t => if c = a then b :: t else c :: replaceFirst a b t

-- Substring search, used to embed `String.prototype.includes`.

/-- Boolean test that `pat` occurs as a contiguous segment of `s`
(JavaScript `s.includes(pat)`). -/
def hasSeg (pat : Str) : Str → Bool
  | [] => pat.isEmpty
  | c :: rest => pat.isPrefixOf (c :: rest) || hasSeg pat rest

-- Row objects: the JavaScript objects keyed by trimmed header labels.

/-- A normalized row: bindings from header label to cell value, in insertion
order; later bindings shadow earlier ones, as JavaScript property
assignment does. -/
abbrev RowObj := List (Str × Cell)

/-- Property read `rowObject[key]`: the last binding for `key`, or
`undefined` when the key is absent. -/
def rowGet (r : RowObj) (k : Str) : Cell :=
  match r.reverse.find? (fun p => p.1 = k) with
  | some p => p.2
  | none => Cell.cundef

/-- Normalization applied when a row object is built: string values are
trimmed, every other value passes through unchanged. -/
def normVal : Cell → Cell
  | .cstr s => .cstr (jsTrim s)
  | v => v

/-- Construction of the row object for one data row, mirroring
`headers.forEach((header, index) => { if (header) rowObject[header] = ... })`:
blank header labels are dropped, reads past the row's end give `undefined`. -/
def buildRowObject (headers : List Str) (row : List Cell) : RowObj :=
  (headers.enum).foldl
    (fun acc hi =>
      if hi.2.isEmpty then acc
      else acc ++ [(hi.2, normVal (row.getD hi.1 Cell.cundef))])
    []

-- File-type detection.

/-- The seven concrete file types plus the `UNKNOWN` sentinel. -/
inductive FileType where
  | ITEM_MASTER
  | ITEM_MASTER_V2
  | FACTS
  | STORE_ITEMS
  | STORE
  | STOCK
  | PRICE
  | UNKNOWN
deriving DecidableEq, Repr

/-- Keyword fingerprints of `FILE_TYPE_DEFINITIONS` (the `UNKNOWN` sentinel
has no definition). -/
def FILE_TYPE_DEFINITIONS : FileType → List Str
  | .STORE => ["Store UID*".toList]
  | .STORE_ITEMS =>
      ["Store UID*".toList, "Product UID*".toList, "In assortment?".toList,
       "Purchase price".toList]
  | .FACTS => ["Product UID*".toList, "Store UID*".toList, "Date*".toList]
  | .ITEM_MASTER_V2 =>
      ["UID*".toList, "Product name*".toList, "Manufacturer UID".toList]
  | .ITEM_MASTER =>
      ["UID*".toList, "Product name*".toList, "Barcode".toList,
       "Manufacturer".toList]
  | .STOCK => ["StoreID".toList, "ItemUID".toList, "Quantity".toList]
  | .PRICE => ["ItemUID".toList, "PriceList".toList, "Price".toList]
  | .UNKNOWN => []

/-- The fixed precedence order of `detectFileType`'s type loop. -/
def typeCheckOrder : List FileType :=
  [.ITEM_MASTER_V2, .ITEM_MASTER, .STORE_ITEMS, .FACTS, .STORE, .STOCK, .PRICE]

/-- A workbook: named sheets in order, each a grid of cell rows. -/
abbrev Workbook := List (Str × List (List Cell))

/-- The detector's row test, exactly as written in the source:
`row.some(cell => typeof cell === 'string' && keywords.every(kw => row.join('|').includes(kw)))`. -/
def rowMatchesCode (kws : List Str) (row : List Cell) : Bool :=
  row.any (fun cell => cell.isStr && kws.all (fun kw => hasSeg kw (joinBar row)))

/-- The row test as the specification words it: the cell concatenation
(joined by the `'|'` delimiter) contains every keyword. -/
def rowMatchesClaim (kws : List Str) (row : List Cell) : Bool :=
  kws.all (fun kw => hasSeg kw (joinBar row))

/-- `detectFileType`: for each type in precedence order, for each sheet in
workbook order, scan the first 20 rows; the first match returns
`(type, sheetName)`, otherwise `(UNKNOWN, null)`. -/
def detectFileType (wb : Workbook) : FileType × Option Str :=
  match typeCheckOrder.findSome? (fun t =>
      wb.findSome? (fun s =>
        if (s.2.take 20).any (rowMatchesCode (FILE_TYPE_DEFINITIONS t)) then
          some (t, s.1)
        else none)) with
  | some p => (p.1, some p.2)
  | none => (.UNKNOWN, none)

/-- Detection as described by the specification text, identical to
`detectFileType` except that a row matches exactly when its joined cell
concatenation contains every keyword. -/
def detectSpec (wb : Workbook) : FileType × Option Str :=
  match typeCheckOrder.findSome? (fun t =>
      wb.findSome? (fun s =>
        if (s.2.take 20).any (rowMatchesClaim (FILE_TYPE_DEFINITIONS t)) then
          some (t, s.1)
        else none)) with
  | some p => (p.1, some p.2)
  | none => (.UNKNOWN, none)

-- Character inventory of non-string cell renderings, used to show that the
-- detector's `typeof cell === 'string'` guard is implied by keyword
-- containment for every defined fingerprint.

/-- Characters that can appear in the `join` rendering of a non-string cell
(digits, number punctuation, boolean words, date words and punctuation). -/
def safeChars : List Char :=
  "0123456789-. :+()SunMoTeWdhFriatJbApygOcNvDGCUlmsf".toList

theorem getD_mem_or_default {α : Type} (l : List α) (n : Nat) (d : α) :
    l.getD n d ∈ l ∨ l.getD n d = d := by
  by_cases h : n < l.length
  · rw [List.getD_eq_getElem l d h]
    exact Or.inl (List.getElem_mem h)
  · exact Or.inr (List.getD_eq_default l d (Nat.le_of_not_lt h))

theorem forallMemAppend {α : Type} {P : α → Prop} {l1 l2 : List α}
    (h1 : ∀ c ∈ l1, P c) (h2 : ∀ c ∈ l2, P c) : ∀ c ∈ l1 ++ l2, P c := by
  intro c hc
  rcases List.mem_append.mp hc with h | h
  · exact h1 c h
  · exact h2 c h

theorem forallMemCons {α : Type} {P : α → Prop} {a : α} {l : List α}
    (ha : P a) (h : ∀ c ∈ l, P c) : ∀ c ∈ a :: l, P c := by
  intro c hc
  rcases List.mem_cons.mp hc with rfl | h' 
  · exact ha
  · exact h c h'

theorem digitChar_mem (n : Nat) : digitChar n ∈ digitChars := by
  unfold digitChar
  rcases getD_mem_or_default digitChars n '9' with h | h
  · exact h
  · rw [h]; decide

theorem natToCharsAux_subset (f n : Nat) :
    ∀ c ∈ natToCharsAux f n, c ∈ digitChars := by
  induction f generalizing n with
  | zero => simp [natToCharsAux]
  | succ f ih =>
    intro c hc
    unfold natToCharsAux at hc
    split at hc
    · rcases List.mem_singleton.mp hc with rfl
      exact digitChar_mem n
    · rcases List.mem_append.mp hc with h | h
      · exact ih _ c h
      · rcases List.mem_singleton.mp h with rfl
        exact digitChar_mem _

theorem natToChars_subset (n : Nat) : ∀ c ∈ natToChars n, c ∈ digitChars :=
  natToCharsAux_subset (n + 1) n

theorem fracChars_subset (f n d : Nat) :
    ∀ c ∈ fracChars f n d, c ∈ digitChars := by
  induction f generalizing n with
  | zero => simp [fracChars]
  | succ f ih =>
    intro c hc
    unfold fracChars at hc
    split at hc
    · simp at hc
    · rcases List.mem_cons.mp hc with rfl | h
      · exact digitChar_mem _
      · exact ih _ c h

theorem digit_safe : ∀ c ∈ digitChars, c ∈ safeChars := by decide

theorem natToChars_safe (n : Nat) : ∀ c ∈ natToChars n, c ∈ safeChars :=
  fun c hc => digit_safe c (natToChars_subset n c hc)

theorem ratToChars_subset (q : Rat) : ∀ c ∈ ratToChars q, c ∈ safeChars := by
  unfold ratToChars
  apply forallMemAppend (forallMemAppend ?_ (natToChars_safe _)) ?_
  · split
    · exact forallMemCons (by decide) (by simp)
    · simp
  · split
    · simp
    · exact forallMemCons (by decide)
        (fun c hc => digit_safe c (fracChars_subset _ _ _ c hc))

theorem pad2_safe (n : Nat) : ∀ c ∈ pad2 n, c ∈ safeChars := by
  unfold pad2
  split
  · exact forallMemCons (by decide) (natToChars_safe n)
  · exact natToChars_safe n

theorem weekAbbrev_safe (k : Nat) : ∀ c ∈ weekAbbrev k, c ∈ safeChars := by
  unfold weekAbbrev
  rcases getD_mem_or_default weekNames (k % 7) [] with h | h
  · revert h
    have : ∀ w ∈ weekNames, ∀ c ∈ w, c ∈ safeChars := by decide
    exact this _
  · rw [h]; simp

theorem monAbbrev_safe (k : Nat) : ∀ c ∈ monAbbrev k, c ∈ safeChars := by
  unfold monAbbrev
  rcases getD_mem_or_default monNames (k % 12) [] with h | h
  · revert h
    have : ∀ w ∈ monNames, ∀ c ∈ w, c ∈ safeChars := by decide
    exact this _
  · rw [h]; simp

theorem dateToChars_safe (ms : Int) : ∀ c ∈ dateToChars ms, c ∈ safeChars := by
  unfold dateToChars
  dsimp only
  exact forallMemAppend (weekAbbrev_safe _) (forallMemCons (by decide)
    (forallMemAppend (monAbbrev_safe _) (forallMemCons (by decide)
      (forallMemAppend (pad2_safe _) (forallMemCons (by decide)
        (forallMemAppend (natToChars_safe _) (forallMemCons (by decide)
          (forallMemAppend (pad2_safe _) (forallMemCons (by decide)
            (forallMemAppend (pad2_safe _) (forallMemCons (by decide)
              (forallMemAppend (pad2_safe _) (by decide)))))))))))))

theorem joinRender_safe (cell : Cell) (hns : cell.isStr = false) :
    ∀ c ∈ joinRender cell, c ∈ safeChars := by
  cases cell with
  | cstr s => simp [Cell.isStr] at hns
  | cnum q => exact ratToChars_subset q
  | cdate ms => exact dateToChars_safe ms
  | cbool b => cases b <;> simp only [joinRender, strRender] <;> decide
  | cnull => simp [joinRender]
  | cundef => simp [joinRender]

-- Substring and join membership lemmas.

theorem isPrefixOf_mem : ∀ (p s : Str), p.isPrefixOf s = true → ∀ c ∈ p, c ∈ s := by
  intro p
  induction p with
  | nil => simp
  | cons a as ih =>
    intro s hp c hc
    cases s with
    | nil => simp [List.isPrefixOf] at hp
    | cons b bs =>
      simp only [List.isPrefixOf, Bool.and_eq_true, beq_iff_eq] at hp
      rcases List.mem_cons.mp hc with rfl | h
      · exact hp.1 ▸ List.mem_cons_self _ _
      · exact List.mem_cons_of_mem _ (ih bs hp.2 c h)

theorem hasSeg_mem (pat : Str) : ∀ (s : Str), hasSeg pat s = true → ∀ c ∈ pat, c ∈ s := by
  intro s
  induction s with
  | nil =>
    intro h c hc
    unfold hasSeg at h
    rw [List.isEmpty_iff.mp h] at hc
    simp at hc
  | cons b bs ih =>
    intro h c hc
    unfold hasSeg at h
    simp only [Bool.or_eq_true] at h
    rcases h with h1 | h2
    · exact isPrefixOf_mem pat _ h1 c hc
    · exact List.mem_cons_of_mem _ (ih h2 c hc)

theorem mem_joinBar (c : Char) :
    ∀ (row : List Cell), c ∈ joinBar row →
      c = '|' ∨ ∃ cell ∈ row, c ∈ joinRender cell := by
  intro row
  induction row with
  | nil => simp [joinBar]
  | cons a t ih =>
    intro h
    cases t with
    | nil => exact Or.inr ⟨a, by simp, by simpa [joinBar] using h⟩
    | cons b t2 =>
      rw [show joinBar (a :: b :: t2) = joinRender a ++ '|' :: joinBar (b :: t2)
        from rfl] at h
      rcases List.mem_append.mp h with h1 | h1
      · exact Or.inr ⟨a, List.mem_cons_self _ _, h1⟩
      · rcases List.mem_cons.mp h1 with rfl | h2
        · exact Or.inl rfl
        · rcases ih h2 with h3 | ⟨cell, hc1, hc2⟩
          · exact Or.inl h3
          · exact Or.inr ⟨cell, List.mem_cons_of_mem _ hc1, hc2⟩

-- Equivalence of the source's row test and the specification's row test on
-- every defined fingerprint.

theorem codeMatch_imp_claimMatch (kws : List Str) (row : List Cell)
    (h : rowMatchesCode kws row = true) : rowMatchesClaim kws row = true := by
  unfold rowMatchesCode at h
  rcases List.any_eq_true.mp h with ⟨cell, _, hp⟩
  simp only [Bool.and_eq_true] at hp
  exact hp.2

theorem claimMatch_imp_codeMatch (kws : List Str) (kw : Str) (ch : Char)
    (hkw : kw ∈ kws) (hch : ch ∈ kw) (hsafe : ch ∉ safeChars) (hbar : ch ≠ '|')
    (row : List Cell) (h : rowMatchesClaim kws row = true) :
    rowMatchesCode kws row = true := by
  have hseg : hasSeg kw (joinBar row) = true := by
    have := List.all_eq_true.mp h kw hkw
    simpa using this
  have hmem : ch ∈ joinBar row := hasSeg_mem kw _ hseg ch hch
  rcases mem_joinBar ch row hmem with rfl | ⟨cell, hcell, hc⟩
  · exact absurd rfl hbar
  · have hstr : cell.isStr = true := by
      by_contra hns
      exact hsafe (joinRender_safe cell (Bool.not_eq_true _ ▸ hns) ch hc)
    unfold rowMatchesCode
    exact List.any_eq_true.mpr ⟨cell, hcell, by rw [hstr, Bool.true_and]; exact h⟩

theorem rowMatches_eq (t : FileType) (ht : t ≠ FileType.UNKNOWN) (row : List Cell) :
    rowMatchesCode (FILE_TYPE_DEFINITIONS t) row
      = rowMatchesClaim (FILE_TYPE_DEFINITIONS t) row := by
  cases h1 : rowMatchesClaim (FILE_TYPE_DEFINITIONS t) row
  · cases h2 : rowMatchesCode (FILE_TYPE_DEFINITIONS t) row
    · rfl
    · rw [codeMatch_imp_claimMatch _ _ h2] at h1
      exact absurd h1 (by simp)
  · cases t with
    | ITEM_MASTER =>
      exact claimMatch_imp_codeMatch _ "UID*".toList '*'
        (by decide) (by decide) (by decide) (by decide) row h1
    | ITEM_MASTER_V2 =>
      exact claimMatch_imp_codeMatch _ "UID*".toList '*'
        (by decide) (by decide) (by decide) (by decide) row h1
    | FACTS =>
      exact claimMatch_imp_codeMatch _ "Date*".toList '*'
        (by decide) (by decide) (by decide) (by decide) row h1
    | STORE_ITEMS =>
      exact claimMatch_imp_codeMatch _ "Store UID*".toList '*'
        (by decide) (by decide) (by decide) (by decide) row h1
    | STORE =>
      exact claimMatch_imp_codeMatch _ "Store UID*".toList '*'
        (by decide) (by decide) (by decide) (by decide) row h1
    | STOCK =>
      exact claimMatch_imp_codeMatch _ "Quantity".toList 'Q'
        (by decide) (by decide) (by decide) (by decide) row h1
    | PRICE =>
      exact claimMatch_imp_codeMatch _ "PriceList".toList 'P'
        (by decide) (by decide) (by decide) (by decide) row h1
    | UNKNOWN => exact absurd rfl ht

-- Generic search lemmas.

theorem findSome?_congr {α β : Type} (f g : α → Option β) (l : List α)
    (h : ∀ a ∈ l, f a = g a) : l.findSome? f = l.findSome? g := by
  induction l with
  | nil => rfl
  | cons a as ih =>
    rw [List.findSome?_cons, List.findSome?_cons, h a (List.mem_cons_self a as)]
    cases g a with
    | none => exact ih (fun b hb => h b (List.mem_cons_of_mem a hb))
    | some b => rfl

theorem any_congr {α : Type} (p q : α → Bool) (l : List α)
    (h : ∀ a ∈ l, p a = q a) : l.any p = l.any q := by
  induction l with
  | nil => rfl
  | cons a as ih =>
    simp only [List.any_cons, h a (List.mem_cons_self a as),
      ih (fun b hb => h b (List.mem_cons_of_mem a hb))]

theorem findSome?_isSome_of_mem {α β : Type} (l : List α) (f : α → Option β)
    (a : α) (ha : a ∈ l) (hf : (f a).isSome) : (l.findSome? f).isSome := by
  induction l with
  | nil => simp at ha
  | cons x xs ih =>
    rw [List.findSome?_cons]
    rcases List.mem_cons.mp ha with rfl | h
    · rcases hfa : f a with _ | b
      · rw [hfa] at hf; simp at hf
      · simp
    · cases f x with
      | none => exact ih h
      | some b => simp

theorem findSome?_sheet_fst {α : Type} (l : List (Str × α)) (P : Str × α → Bool)
    (t : FileType) (x : FileType × Str)
    (h : l.findSome? (fun s => if P s then some (t, s.1) else none) = some x) :
    x.1 = t := by
  induction l with
  | nil => simp [List.findSome?] at h
  | cons a as ih =>
    rw [List.findSome?_cons] at h
    by_cases hP : P a = true
    · simp only [hP, if_true] at h
      cases h
      rfl
    · simp only [Bool.not_eq_true] at hP
      simp only [hP, Bool.false_eq_true, if_false] at h
      exact ih h

theorem detectFileType_eq_detectSpec (wb : Workbook) :
    detectFileType wb = detectSpec wb := by
  unfold detectFileType detectSpec
  rw [findSome?_congr _ (fun t =>
      wb.findSome? (fun s =>
        if (s.2.take 20).any (rowMatchesClaim (FILE_TYPE_DEFINITIONS t)) then
          some (t, s.1)
        else none)) _ ?_]
  intro t ht
  apply findSome?_congr
  intro s _
  rw [any_congr _ (rowMatchesClaim (FILE_TYPE_DEFINITIONS t)) _ ?_]
  intro r _
  have htu : t ≠ FileType.UNKNOWN := by
    intro he
    subst he
    exact absurd ht (by decide)
  exact rowMatches_eq t htu r

theorem detect_v2_of_sheet_match (wb : Workbook)
    (h : (wb.findSome? (fun s =>
        if (s.2.take 20).any
            (rowMatchesCode (FILE_TYPE_DEFINITIONS FileType.ITEM_MASTER_V2)) then
          some (FileType.ITEM_MASTER_V2, s.1)
        else none)).isSome) :
    (detectFileType wb).1 = FileType.ITEM_MASTER_V2 := by
  rcases Option.isSome_iff_exists.mp h with ⟨x, hx⟩
  have houter : typeCheckOrder.findSome? (fun t =>
      wb.findSome? (fun s =>
        if (s.2.take 20).any (rowMatchesCode (FILE_TYPE_DEFINITIONS t)) then
          some (t, s.1)
        else none)) = some x := by
    rw [show typeCheckOrder = FileType.ITEM_MASTER_V2 ::
        [FileType.ITEM_MASTER, FileType.STORE_ITEMS, FileType.FACTS,
         FileType.STORE, FileType.STOCK, FileType.PRICE] from rfl,
      List.findSome?_cons]
    rw [hx]
  unfold detectFileType
  rw [houter]
  exact findSome?_sheet_fst wb _ _ x hx

/-- C1: type detection iterates the candidate types in the fixed precedence
order `ITEM_MASTER_V2, ITEM_MASTER, STORE_ITEMS, FACTS, STORE, STOCK, PRICE`,
and for each type each sheet in workbook order, scanning at most the first
20 rows of a sheet; a row matches a type exactly when the delimiter-joined
concatenation of its cells contains every keyword of that type's definition
(this is `detectSpec`, and `detectFileType` coincides with it); the first
matching (type, sheet) pair is returned and detection stops, and with no
match anywhere the result is `(UNKNOWN, null)` (built into `detectSpec`).
In particular, a row within the scanned range satisfying both the
`ITEM_MASTER_V2` and the `ITEM_MASTER` keyword sets classifies the workbook
as `ITEM_MASTER_V2`. -/
theorem c1_detection_precedence (wb : Workbook) :
    detectFileType wb = detectSpec wb ∧
    (∀ s ∈ wb, ∀ r ∈ s.2.take 20,
      rowMatchesClaim (FILE_TYPE_DEFINITIONS FileType.ITEM_MASTER_V2) r = true →
      rowMatchesClaim (FILE_TYPE_DEFINITIONS FileType.ITEM_MASTER) r = true →
      (detectFileType wb).1 = FileType.ITEM_MASTER_V2) := by
  refine ⟨detectFileType_eq_detectSpec wb, ?_⟩
  intro s hs r hr hv2 _
  have hcode : rowMatchesCode (FILE_TYPE_DEFINITIONS FileType.ITEM_MASTER_V2) r
      = true := by
    rw [rowMatches_eq _ (by decide) r]
    exact hv2
  apply detect_v2_of_sheet_match wb
  apply findSome?_isSome_of_mem _ _ s hs
  rw [if_pos (List.any_eq_true.mpr ⟨r, hr, hcode⟩)]
  rfl

/-- Concrete workbook exercising the C1 precedence scenario: its single row
satisfies both the `ITEM_MASTER_V2` and the `ITEM_MASTER` keyword sets. -/
def wbBothMasters : Workbook :=
  [("Sheet1".toList,
    [[Cell.cstr "UID*".toList, Cell.cstr "Product name*".toList,
      Cell.cstr "Manufacturer UID".toList, Cell.cstr "Barcode".toList,
      Cell.cstr "Manufacturer".toList]])]

theorem c1_detection_precedence_witness :
    (detectFileType wbBothMasters).1 = FileType.ITEM_MASTER_V2 :=
  (c1_detection_precedence wbBothMasters).2
    ("Sheet1".toList,
      [[Cell.cstr "UID*".toList, Cell.cstr "Product name*".toList,
        Cell.cstr "Manufacturer UID".toList, Cell.cstr "Barcode".toList,
        Cell.cstr "Manufacturer".toList]])
    (by decide)
    [Cell.cstr "UID*".toList, Cell.cstr "Product name*".toList,
      Cell.cstr "Manufacturer UID".toList, Cell.cstr "Barcode".toList,
      Cell.cstr "Manufacturer".toList]
    (by decide) (by decide) (by decide)

-- CSV serialization (`arrayToCsv`).

/-- Quote doubling inside a quoted CSV field (`value.replace(/"/g, '""')`). -/
def csvEscape (s : Str) : Str :=
  s.flatMap (fun c => if c = '"' then ['"', '"'] else [c])

/-- Rendering of one field by `arrayToCsv`: `null`/`undefined` become the
empty string; otherwise the stringified value, wrapped in doubled-quote
quoting exactly when it contains a quote or a comma. -/
def renderField (v : Cell) : Str :=
  match v with
  | .cnull => []
  | .cundef => []
  | v =>
    let s := strRender v
    if s.contains '"' || s.contains ',' then '"' :: (csvEscape s ++ ['"'])
    else s

/-- `Array.prototype.join` with a one-character separator. -/
def joinSep (sep : Char) : List Str → Str
  | [] => []
  | [s] => s
  | s :: rest => s ++ sep :: joinSep sep rest

/-- `arrayToCsv`: header line (columns joined by commas) followed by one
comma-joined line per record, in the given column order. -/
def arrayToCsv (data : List RowObj) (columns : List Str) : Str :=
  joinSep ',' columns ++ '\n' ::
    joinSep '\n' (data.map (fun row =>
      joinSep ',' (columns.map (fun col => renderField (rowGet row col)))))

/-- The field value recovered from a CSV round trip: `null`/`undefined`
collapse to the empty string, everything else keeps its string form. -/
def collapseNull (v : Cell) : Str :=
  match v with
  | .cnull => []
  | .cundef => []
  | v => strRender v

/-- C7: `arrayToCsv` emits the header line followed by one comma-joined
line per record in the given column order; `null`/missing fields render
as the empty string; a field is quoted, with internal quotes doubled,
exactly when its string form contains a comma or a quote, and renders
verbatim otherwise; and a record's line depends only on the listed
columns, so columns outside the list are never emitted. -/
theorem c7_csv_serializer (data : List RowObj) (columns : List Str) :
    arrayToCsv data columns =
      joinSep ',' columns ++ '\n' ::
        joinSep '\n' (data.map (fun row =>
          joinSep ',' (columns.map (fun col => renderField (rowGet row col))))) ∧
    (∀ v, (v = Cell.cnull ∨ v = Cell.cundef) → renderField v = []) ∧
    (∀ v, v ≠ Cell.cnull → v ≠ Cell.cundef →
      (((strRender v).contains '"' = false ∧ (strRender v).contains ',' = false) →
         renderField v = strRender v) ∧
      (((strRender v).contains '"' = true ∨ (strRender v).contains ',' = true) →
         renderField v = '"' :: (csvEscape (strRender v) ++ ['"']))) ∧
    (∀ row row', (∀ col ∈ columns, rowGet row col = rowGet row' col) →
      columns.map (fun col => renderField (rowGet row col))
        = columns.map (fun col => renderField (rowGet row' col))) := by
  have hrf : ∀ v : Cell, v ≠ Cell.cnull → v ≠ Cell.cundef →
      renderField v =
        if (strRender v).contains '"' || (strRender v).contains ',' then
          '"' :: (csvEscape (strRender v) ++ ['"'])
        else strRender v := by
    intro v hn hu
    cases v <;> first | rfl | exact absurd rfl hn | exact absurd rfl hu
  refine ⟨rfl, ?_, ?_, ?_⟩
  · rintro v (rfl | rfl) <;> rfl
  · intro v hn hu
    constructor
    · intro ⟨h1, h2⟩
      rw [hrf v hn hu, h1, h2]
      rfl
    · intro h
      rw [hrf v hn hu, if_pos (by rcases h with h | h <;> simp_all)]
  · intro row row' h
    exact List.map_congr_left (fun col hcol => by rw [h col hcol])

theorem c7_csv_serializer_witness :
    renderField (Cell.cstr "a,b".toList)
      = '"' :: (csvEscape "a,b".toList ++ ['"']) :=
  ((c7_csv_serializer [] []).2.2.1 (Cell.cstr "a,b".toList)
    (by decide) (by decide)).2 (Or.inr (by decide))

-- A CSV reader, used to state the round-trip property: lines split on the
-- newline separator, fields split on top-level commas with doubled-quote
-- unescaping inside quoted fields.

/-- Splitting a string at every occurrence of a separator character. -/
def splitChar (sep : Char) : Str → List Str
  | [] => [[]]
  | c :: rest =>
    let r := splitChar sep rest
    if c = sep then [] :: r else (c :: r.headD []) :: r.tail

/-- Reading the body of a quoted CSV field (input starts after the opening
quote): doubled quotes become literal quotes, a lone quote closes the field;
returns the field content and the remainder after the closing quote. -/
def readQuoted : Str → Str × Str
  | [] => ([], [])
  | c :: rest =>
    if c = '"' then
      match rest with
      | c2 :: rest2 =>
        if c2 = '"' then
          let r := readQuoted rest2
          ('"' :: r.1, r.2)
        else ([], rest)
      | [] => ([], [])
    else
      let r := readQuoted rest
      (c :: r.1, r.2)

/-- Reading one CSV field: a field opening with a quote is read as a quoted
field, any other field extends to the next comma. -/
def readField (s : Str) : Str × Str :=
  match s with
  | [] => ([], [])
  | c :: rest =>
    if c = '"' then readQuoted rest
    else (s.takeWhile (· ≠ ','), s.dropWhile (· ≠ ','))

/-- Fields of one CSV line (fuelled; the fuel `length + 1` always
suffices because each recursive step consumes at least the comma). -/
def parseLineAux : Nat → Str → List Str
  | 0, _ => []
  | fuel + 1, s =>
    let fr := readField s
    match fr.2 with
    | c :: rest => if c = ',' then fr.1 :: parseLineAux fuel rest else [fr.1]
    | [] => [fr.1]

/-- Fields of one CSV line. -/
def parseLine (s : Str) : List Str := parseLineAux (s.length + 1) s

/-- The CSV reader: every line, parsed into fields. -/
def csvParse (s : Str) : List (List Str) := (splitChar '\n' s).map parseLine

-- Round-trip lemmas for the CSV reader.

theorem takeWhile_all_append {α : Type} (p : α → Bool) (s rest : List α)
    (h : ∀ c ∈ s, p c = true) :
    (s ++ rest).takeWhile p = s ++ rest.takeWhile p := by
  induction s with
  | nil => rfl
  | cons a s' ih =>
    rw [List.cons_append, List.takeWhile_cons,
      h a (List.mem_cons_self a s'), List.cons_append,
      ih (fun c hc => h c (List.mem_cons_of_mem a hc))]
    simp

theorem dropWhile_all_append {α : Type} (p : α → Bool) (s rest : List α)
    (h : ∀ c ∈ s, p c = true) :
    (s ++ rest).dropWhile p = rest.dropWhile p := by
  induction s with
  | nil => rfl
  | cons a s' ih =>
    rw [List.cons_append, List.dropWhile_cons_of_pos (h a (List.mem_cons_self a s')),
      ih (fun c hc => h c (List.mem_cons_of_mem a hc))]

theorem csvEscape_mem (s : Str) (c : Char) (hc : c ∈ csvEscape s) : c ∈ s := by
  rcases List.mem_flatMap.mp hc with ⟨a, ha, hca⟩
  by_cases h : a = '"'
  · simp [h] at hca
    exact hca ▸ h ▸ ha
  · simp [h] at hca
    exact hca ▸ ha

theorem renderField_eq_of_ne (v : Cell) (hn : v ≠ Cell.cnull) (hu : v ≠ Cell.cundef) :
    renderField v =
      if (strRender v).contains '"' || (strRender v).contains ',' then
        '"' :: (csvEscape (strRender v) ++ ['"'])
      else strRender v := by
  cases v <;> first | rfl | exact absurd rfl hn | exact absurd rfl hu

theorem renderField_mem (v : Cell) (c : Char) (hc : c ∈ renderField v) :
    c = '"' ∨ c ∈ strRender v := by
  by_cases hn : v = Cell.cnull
  · subst hn; simp [renderField] at hc
  by_cases hu : v = Cell.cundef
  · subst hu; simp [renderField] at hc
  rw [renderField_eq_of_ne v hn hu] at hc
  split at hc
  · rcases List.mem_cons.mp hc with rfl | h
    · exact Or.inl rfl
    · rcases List.mem_append.mp h with h1 | h1
      · exact Or.inr (csvEscape_mem _ _ h1)
      · exact Or.inl (List.mem_singleton.mp h1)
  · exact Or.inr hc

theorem mem_joinSep (sep : Char) (c : Char) :
    ∀ (parts : List Str), c ∈ joinSep sep parts →
      c = sep ∨ ∃ p ∈ parts, c ∈ p := by
  intro parts
  induction parts with
  | nil => simp [joinSep]
  | cons a t ih =>
    intro h
    cases t with
    | nil => exact Or.inr ⟨a, by simp, by simpa [joinSep] using h⟩
    | cons b t2 =>
      rw [show joinSep sep (a :: b :: t2) = a ++ sep :: joinSep sep (b :: t2)
        from rfl] at h
      rcases List.mem_append.mp h with h1 | h1
      · exact Or.inr ⟨a, List.mem_cons_self _ _, h1⟩
      · rcases List.mem_cons.mp h1 with rfl | h2
        · exact Or.inl rfl
        · rcases ih h2 with h3 | ⟨p, hp1, hp2⟩
          · exact Or.inl h3
          · exact Or.inr ⟨p, List.mem_cons_of_mem _ hp1, hp2⟩

theorem splitChar_no_sep (sep : Char) (a : Str) (ha : sep ∉ a) :
    splitChar sep a = [a] := by
  induction a with
  | nil => rfl
  | cons c a' ih =>
    have hc : c ≠ sep := fun h => ha (h ▸ List.mem_cons_self c a')
    have ha' : sep ∉ a' := fun h => ha (List.mem_cons_of_mem c h)
    simp [splitChar, hc, ih ha']

theorem splitChar_sep_append (sep : Char) (a rest : Str) (ha : sep ∉ a) :
    splitChar sep (a ++ sep :: rest) = a :: splitChar sep rest := by
  induction a with
  | nil => simp [splitChar]
  | cons c a' ih =>
    have hc : c ≠ sep := fun h => ha (h ▸ List.mem_cons_self c a')
    have ha' : sep ∉ a' := fun h => ha (List.mem_cons_of_mem c h)
    rw [List.cons_append]
    simp only [splitChar, if_neg hc, ih ha']
    rfl

theorem splitChar_joinSep (sep : Char) :
    ∀ (parts : List Str), parts ≠ [] → (∀ p ∈ parts, sep ∉ p) →
      splitChar sep (joinSep sep parts) = parts := by
  intro parts
  induction parts with
  | nil => intro h; exact absurd rfl h
  | cons a t ih =>
    intro _ hall
    cases t with
    | nil => exact splitChar_no_sep sep a (hall a (List.mem_cons_self a []))
    | cons b t2 =>
      rw [show joinSep sep (a :: b :: t2) = a ++ sep :: joinSep sep (b :: t2)
          from rfl,
        splitChar_sep_append sep a _ (hall a (List.mem_cons_self _ _)),
        ih (by simp) (fun p hp => hall p (List.mem_cons_of_mem a hp))]

theorem readQuoted_escape (s : Str) :
    ∀ (rest : Str), rest.head? ≠ some '"' →
      readQuoted (csvEscape s ++ '"' :: rest) = (s, rest) := by
  induction s with
  | nil =>
    intro rest hrest
    cases rest with
    | nil => rfl
    | cons c2 rest2 =>
      have hc2 : c2 ≠ '"' := fun h => hrest (by rw [h]; rfl)
      simp [csvEscape, readQuoted, hc2]
  | cons a s' ih =>
    intro rest hrest
    by_cases ha : a = '"'
    · subst ha
      have hesc : csvEscape ('"' :: s') = '"' :: '"' :: csvEscape s' := by
        simp [csvEscape]
      rw [hesc, List.cons_append, List.cons_append]
      unfold readQuoted
      simp only [if_pos rfl]
      rw [ih rest hrest]
      simp
    · have hesc : csvEscape (a :: s') = a :: csvEscape s' := by
        simp [csvEscape, ha]
      rw [hesc, List.cons_append]
      unfold readQuoted
      rw [if_neg ha]
      simp only [ih rest hrest]

theorem collapseNull_eq_of_ne (v : Cell) (hn : v ≠ Cell.cnull)
    (hu : v ≠ Cell.cundef) : collapseNull v = strRender v := by
  cases v <;> first | rfl | exact absurd rfl hn | exact absurd rfl hu

theorem readField_plain (s rest : Str) (hq : s.contains '"' = false)
    (hcm : s.contains ',' = false)
    (hrest : rest = [] ∨ ∃ t, rest = ',' :: t) :
    readField (s ++ rest) = (s, rest) := by
  have hnc : ∀ c ∈ s, (decide ¬(c = ',')) = true := by
    intro c hc
    have : ',' ∉ s := by simpa using hcm
    simp only [decide_eq_true_eq]
    intro hcc
    exact this (hcc ▸ hc)
  cases s with
  | nil =>
    rcases hrest with rfl | ⟨t, rfl⟩
    · rfl
    · simp [readField]
  | cons c s' =>
    have hcq : c ≠ '"' := by
      have : '"' ∉ c :: s' := by simpa using hq
      exact fun h => this (h ▸ List.mem_cons_self c s')
    rw [List.cons_append]
    unfold readField
    dsimp only
    rw [if_neg hcq]
    have htake := takeWhile_all_append (fun x => decide ¬(x = ',')) (c :: s') rest hnc
    have hdrop := dropWhile_all_append (fun x => decide ¬(x = ',')) (c :: s') rest hnc
    rw [List.cons_append] at htake hdrop
    rw [htake, hdrop]
    rcases hrest with rfl | ⟨t, rfl⟩
    · simp
    · simp [List.takeWhile_cons, List.dropWhile_cons]

theorem readField_render (v : Cell) (rest : Str)
    (hrest : rest = [] ∨ ∃ t, rest = ',' :: t) :
    readField (renderField v ++ rest) = (collapseNull v, rest) := by
  by_cases hn : v = Cell.cnull
  · subst hn
    exact readField_plain [] rest (by rfl) (by rfl) hrest
  by_cases hu : v = Cell.cundef
  · subst hu
    exact readField_plain [] rest (by rfl) (by rfl) hrest
  rw [renderField_eq_of_ne v hn hu, collapseNull_eq_of_ne v hn hu]
  by_cases hquote :
      ((strRender v).contains '"' || (strRender v).contains ',') = true
  · rw [if_pos hquote, List.cons_append, List.append_assoc,
      List.singleton_append]
    have hh : rest.head? ≠ some '"' := by
      rcases hrest with rfl | ⟨t, rfl⟩ <;> simp
    unfold readField
    dsimp only
    rw [if_pos rfl]
    exact readQuoted_escape (strRender v) rest hh
  · simp only [Bool.or_eq_true, not_or, Bool.not_eq_true] at hquote
    rw [if_neg (by rw [hquote.1, hquote.2]; simp)]
    exact readField_plain (strRender v) rest hquote.1 hquote.2 hrest

theorem parseLineAux_round :
    ∀ (cells : List Cell), cells ≠ [] → ∀ fuel : Nat,
      (joinSep ',' (cells.map renderField)).length < fuel →
      parseLineAux fuel (joinSep ',' (cells.map renderField))
        = cells.map collapseNull := by
  intro cells
  induction cells with
  | nil => intro h; exact absurd rfl h
  | cons v cs ih =>
    intro _ fuel hfuel
    cases cs with
    | nil =>
      cases fuel with
      | zero => simp at hfuel
      | succ f =>
        have hread : readField (renderField v) = (collapseNull v, []) := by
          have := readField_render v [] (Or.inl rfl)
          simpa using this
        show parseLineAux (f + 1) (joinSep ',' [renderField v]) = _
        unfold parseLineAux
        simp only [joinSep, hread]
        rfl
    | cons w cs2 =>
      cases fuel with
      | zero => simp at hfuel
      | succ f =>
        have hjoin : joinSep ',' ((v :: w :: cs2).map renderField)
            = renderField v ++ ',' :: joinSep ',' ((w :: cs2).map renderField) :=
          rfl
        have hread := readField_render v
          (',' :: joinSep ',' ((w :: cs2).map renderField)) (Or.inr ⟨_, rfl⟩)
        have htail : (joinSep ',' ((w :: cs2).map renderField)).length < f := by
          rw [hjoin] at hfuel
          simp only [List.length_append, List.length_cons] at hfuel
          omega
        unfold parseLineAux
        rw [hjoin]
        dsimp only
        rw [hread]
        dsimp only
        rw [if_pos rfl, ih (by simp) f htail]
        rfl

theorem parseLine_round (cells : List Cell) (h : cells ≠ []) :
    parseLine (joinSep ',' (cells.map renderField)) = cells.map collapseNull :=
  parseLineAux_round cells h _ (Nat.lt_succ_self _)

theorem rowline_no_newline (row : RowObj) (columns : List Str)
    (hvals : ∀ col ∈ columns, '\n' ∉ strRender (rowGet row col)) :
    '\n' ∉ joinSep ',' (columns.map (fun col => renderField (rowGet row col))) := by
  intro h
  rcases mem_joinSep ',' '\n' _ h with h1 | ⟨p, hp, hcp⟩
  · exact absurd h1 (by decide)
  · rcases List.mem_map.mp hp with ⟨col, hcol, rfl⟩
    rcases renderField_mem _ _ hcp with h2 | h2
    · exact absurd h2 (by decide)
    · exact hvals col hcol h2

/-- C8 (amended): for every nonempty record collection and nonempty declared
column order whose labels and whose fields' string forms contain no newline
character, serializing with `arrayToCsv` and re-parsing with the CSV reader
under that column order reproduces the original entity field values, modulo
collapsing `null`/missing to the empty string. -/
theorem c8_roundtrip_amended (data : List RowObj) (columns : List Str)
    (hd : data ≠ []) (hc : columns ≠ [])
    (hcols : ∀ col ∈ columns, '\n' ∉ col)
    (hvals : ∀ row ∈ data, ∀ col ∈ columns, '\n' ∉ strRender (rowGet row col)) :
    (csvParse (arrayToCsv data columns)).tail
      = data.map (fun row =>
          columns.map (fun col => collapseNull (rowGet row col))) := by
  have hhead : '\n' ∉ joinSep ',' columns := by
    intro h
    rcases mem_joinSep ',' '\n' _ h with h1 | ⟨p, hp, hcp⟩
    · exact absurd h1 (by decide)
    · exact hcols p hp hcp
  unfold csvParse arrayToCsv
  rw [splitChar_sep_append '\n' _ _ hhead,
    splitChar_joinSep '\n' _ (by simpa using hd) (fun p hp => by
      rcases List.mem_map.mp hp with ⟨row, hrow, rfl⟩
      exact rowline_no_newline row columns (hvals row hrow)),
    List.map_cons, List.tail_cons, List.map_map]
  apply List.map_congr_left
  intro row _
  have hcells := parseLine_round (columns.map (fun col => rowGet row col))
    (by simpa using hc)
  simp only [List.map_map] at hcells
  simpa [Function.comp] using hcells

/-- Record collection containing an unquoted newline, on which the
round-trip claim fails as stated. -/
def csvNlData : List RowObj := [[("a".toList, Cell.cstr "x\ny".toList)]]

/-- Column order for the newline counterexample. -/
def csvNlCols : List Str := ["a".toList]

/-- C8 counterexample: a field value containing a newline (and neither a
comma nor a quote) is emitted unquoted, so the serialized text gains an
extra line and re-parsing does not reproduce the original values. -/
theorem c8_roundtrip_counterexample :
    (csvParse (arrayToCsv csvNlData csvNlCols)).tail
      ≠ csvNlData.map (fun row =>
          csvNlCols.map (fun col => collapseNull (rowGet row col))) := by
  decide

theorem c8_roundtrip_witness :
    (csvParse (arrayToCsv [[("a".toList, Cell.cstr "p,q".toList)]]
        ["a".toList])).tail
      = [[("a".toList, Cell.cstr "p,q".toList)]].map (fun row =>
          ["a".toList].map (fun col => collapseNull (rowGet row col))) :=
  c8_roundtrip_amended [[("a".toList, Cell.cstr "p,q".toList)]] ["a".toList]
    (by decide) (by decide) (by decide) (by decide)

-- Shared numeric-cell parsing idioms of the extractors.

/-- The extractors' price/measure idiom
`parseFloat(String(v || '0').replace(',', '.')) || null`: a falsy cell is
replaced by `'0'` before parsing, the first comma becomes a decimal point,
and a parse failure or a zero result yields `null`. -/
def parseNumOrNull (v : Cell) : Option Rat :=
  let s := strRender (if truthy v then v else Cell.cstr "0".toList)
  match jsParseFloat (replaceFirst ',' '.' s) with
  | none => none
  | some q => if q = 0 then none else some q

/-- The extractors' integer idiom `parseInt(String(v), 10) || 0`: a parse
failure yields `0`. -/
def parseIntOr0 (v : Cell) : Int :=
  match jsParseInt (strRender v) with
  | none => 0
  | some i => i

/-- An optional rational as a record field value (`null` when absent). -/
def optRat : Option Rat → Cell
  | none => Cell.cnull
  | some q => Cell.cnum q

-- Keyed maps in insertion order (the JavaScript `Map` uses), plus the
-- membership and read operations the extractors need.

/-- `map.has(k)`. -/
def mapHas {α : Type} (m : List (Str × α)) (k : Str) : Bool :=
  m.any (fun p => p.1 = k)

/-- `map.set(k, v)`: an existing key keeps its insertion position but takes
the new value; a new key is appended. -/
def mapSet {α : Type} (m : List (Str × α)) (k : Str) (v : α) : List (Str × α) :=
  if mapHas m k then m.map (fun p => if p.1 = k then (k, v) else p)
  else m ++ [(k, v)]

/-- `map.get(k)`. -/
def mapGet {α : Type} (m : List (Str × α)) (k : Str) : Option α :=
  (m.find? (fun p => p.1 = k)).map (fun p => p.2)

-- Store-Items extraction (`processStoreItemsFile`, row loop).

/-- The item record pushed for one qualifying Store-Items row. -/
def mkStoreItemRecord (r : RowObj) : RowObj :=
  [("store_uid".toList, rowGet r "Store UID*".toList),
   ("item_uid".toList, rowGet r "Product UID*".toList),
   ("is_active_planogram".toList,
     Cell.cnum ((parseIntOr0 (rowGet r "In assortment?".toList) : Int) : Rat)),
   ("purchase_price".toList,
     optRat (parseNumOrNull (rowGet r "Purchase price".toList))),
   ("retail_price".toList,
     optRat (parseNumOrNull (rowGet r "Sale price".toList))),
   ("external_supplier_uid".toList, rowGet r "Supplier UID".toList)]

/-- The supplier record registered on first sight of a supplier id. -/
def mkSupplierRecord (r : RowObj) : RowObj :=
  [("supplier_uid".toList, rowGet r "Supplier UID".toList),
   ("name".toList, rowGet r "Supplier".toList),
   ("is_deleted".toList, Cell.cnum 0)]

/-- Whether a Store-Items row qualifies: both the store id and the item id
are truthy. -/
def storeItemQualifies (r : RowObj) : Bool :=
  truthy (rowGet r "Store UID*".toList) && truthy (rowGet r "Product UID*".toList)

/-- One step of the Store-Items row loop: a qualifying row appends its item
record and registers its supplier on first occurrence. -/
def storeItemsStep (acc : List RowObj × List (Str × RowObj)) (r : RowObj) :
    List RowObj × List (Str × RowObj) :=
  if storeItemQualifies r then
    let supplierUid := rowGet r "Supplier UID".toList
    (acc.1 ++ [mkStoreItemRecord r],
     if truthy supplierUid && !mapHas acc.2 (strRender supplierUid) then
       acc.2 ++ [(strRender supplierUid, mkSupplierRecord r)]
     else acc.2)
  else acc

/-- The Store-Items row loop over all data rows. -/
def processStoreItemsRows (rows : List RowObj) :
    List RowObj × List (Str × RowObj) :=
  rows.foldl storeItemsStep ([], [])

theorem storeItems_items_eq :
    ∀ (rows : List RowObj) (acc : List RowObj × List (Str × RowObj)),
      (rows.foldl storeItemsStep acc).1
        = acc.1 ++ (rows.filter storeItemQualifies).map mkStoreItemRecord := by
  intro rows
  induction rows with
  | nil => intro acc; simp
  | cons r rest ih =>
    intro acc
    rw [List.foldl_cons, ih]
    by_cases hq : storeItemQualifies r = true
    · simp [storeItemsStep, hq, List.filter_cons]
    · simp only [Bool.not_eq_true] at hq
      simp [storeItemsStep, hq, List.filter_cons]

theorem parseNumOrNull_ne_zero (v : Cell) : parseNumOrNull v ≠ some 0 := by
  intro h
  unfold parseNumOrNull at h
  dsimp only at h
  rcases hp : jsParseFloat (replaceFirst ',' '.'
      (strRender (if truthy v then v else Cell.cstr "0".toList))) with _ | q
  · rw [hp] at h
    simp at h
  · rw [hp] at h
    dsimp only at h
    by_cases hq : q = 0
    · rw [if_pos hq] at h
      simp at h
    · rw [if_neg hq] at h
      exact hq (Option.some_injective _ h)

theorem optRat_ne_zero (o : Option Rat) (ho : o ≠ some 0) :
    optRat o ≠ Cell.cnum 0 := by
  intro h
  cases o with
  | none => simp [optRat] at h
  | some q =>
    simp only [optRat, Cell.cnum.injEq] at h
    exact ho (by rw [h])

/-- C4: for every qualifying Store-Items row (store id and item id both
present), the emitted record's price fields come from
`parseFloat(String(v || '0').replace(',', '.')) || null` — comma as decimal
separator, empty cell replaced by `0` before parsing, parse failure or zero
yielding `null` — so the output never carries `0` in a price field; the
quantity/flag field `is_active_planogram` instead defaults to `0` on parse
failure.  Concretely, `"12,50"` parses to `12.5` and an empty purchase
price yields `null`. -/
theorem c4_store_items_prices :
    (∀ rows : List RowObj,
      (processStoreItemsRows rows).1
        = (rows.filter storeItemQualifies).map mkStoreItemRecord) ∧
    (∀ rows : List RowObj, ∀ rec ∈ (processStoreItemsRows rows).1,
      rowGet rec "purchase_price".toList ≠ Cell.cnum 0 ∧
      rowGet rec "retail_price".toList ≠ Cell.cnum 0) ∧
    parseNumOrNull (Cell.cstr "12,50".toList) = some (mkRat 25 2) ∧
    parseNumOrNull Cell.cnull = none ∧
    parseNumOrNull (Cell.cstr []) = none ∧
    parseIntOr0 Cell.cnull = 0 := by
  refine ⟨fun rows => storeItems_items_eq rows ([], []), ?_,
    by decide, by decide, by decide, by decide⟩
  intro rows rec hrec
  unfold processStoreItemsRows at hrec
  rw [storeItems_items_eq rows ([], [])] at hrec
  simp only [List.nil_append] at hrec
  rcases List.mem_map.mp hrec with ⟨r, _, rfl⟩
  constructor
  · rw [show rowGet (mkStoreItemRecord r) "purchase_price".toList
        = optRat (parseNumOrNull (rowGet r "Purchase price".toList)) from rfl]
    exact optRat_ne_zero _ (parseNumOrNull_ne_zero _)
  · rw [show rowGet (mkStoreItemRecord r) "retail_price".toList
        = optRat (parseNumOrNull (rowGet r "Sale price".toList)) from rfl]
    exact optRat_ne_zero _ (parseNumOrNull_ne_zero _)

/-- Concrete qualifying Store-Items row with a comma-decimal purchase price. -/
def rowStoreItem : RowObj :=
  [("Store UID*".toList, Cell.cstr "S1".toList),
   ("Product UID*".toList, Cell.cstr "P1".toList),
   ("Purchase price".toList, Cell.cstr "12,50".toList)]

theorem c4_store_items_prices_witness :
    rowGet (mkStoreItemRecord rowStoreItem) "purchase_price".toList
      ≠ Cell.cnum 0 ∧
    rowGet (mkStoreItemRecord rowStoreItem) "retail_price".toList
      ≠ Cell.cnum 0 :=
  c4_store_items_prices.2.1 [rowStoreItem] (mkStoreItemRecord rowStoreItem)
    (by decide)

-- Facts extraction (`processFactsFile`): the three-path date resolution and
-- the measure parsing.

/-- Truncation toward zero of a rational (ECMAScript `ToInteger`, applied by
the `Date` constructor to a fractional millisecond count). -/
def ratTrunc (q : Rat) : Int := q.num / (q.den : Int)

/-- `formatDateToYYYYMMDD`: calendar components of an epoch-millisecond
date, rendered as `YYYY-MM-DD` with two-digit month and day. -/
def formatDateToYYYYMMDD (ms : Int) : Str :=
  let ymd := civilFromDays (Int.fdiv ms 86400000)
  intToChars ymd.1 ++ '-' :: (pad2 ymd.2.1.toNat ++ '-' :: pad2 ymd.2.2.toNat)

/-- `excelSerialDateToJSDate`: epoch milliseconds of the local-midnight date
carrying the calendar day of `(serial - 25569) * 86400 * 1000` UTC
milliseconds (the 25569-day epoch offset, truncated to a calendar date). -/
def excelSerialDateToJSDate (serial : Rat) : Int :=
  let utcDay := Int.fdiv
    (ratTrunc (rMul (rSub serial (mkRat 25569 1)) (mkRat 86400000 1))) 86400000
  let ymd := civilFromDays utcDay
  daysFromCivil ymd.1 ymd.2.1 ymd.2.2 * 86400000

/-- Modelled from the ECMAScript environment: `new Date(string)` parsing,
restricted to the standard-mandated ISO `YYYY-MM-DD` date-only form (UTC
midnight); the implementation-defined fallback parsing of any other string
is modelled as an invalid date (`none`). -/
def parseIsoDate (s : Str) : Option Int :=
  match s with
  | [y1, y2, y3, y4, '-', m1, m2, '-', d1, d2] =>
    if (y1.isDigit && y2.isDigit && y3.isDigit && y4.isDigit)
        && (m1.isDigit && m2.isDigit) && (d1.isDigit && d2.isDigit) then
      let y : Int := digitsVal [y1, y2, y3, y4]
      let m : Int := digitsVal [m1, m2]
      let d : Int := digitsVal [d1, d2]
      if 1 ≤ m ∧ m ≤ 12 ∧ 1 ≤ d ∧ d ≤ daysInMonth y m then
        some (daysFromCivil y m d * 86400000)
      else none
    else none
  | _ => none

/-- The Facts date resolution, exactly as the source orders it: a truthy
cell is tried as (1) an already-valid `Date`, else (2) a numeric value
strictly greater than 1 taken as an Excel serial, else (3) a generic
string parse of its string form; a falsy cell yields `null`. -/
def resolveFactsDate (dateValue : Cell) : Option Str :=
  if truthy dateValue then
    match dateValue with
    | Cell.cdate ms => some (formatDateToYYYYMMDD ms)
    | Cell.cnum q =>
      if rLt (mkRat 1 1) q then
        some (formatDateToYYYYMMDD (excelSerialDateToJSDate q))
      else (parseIsoDate (strRender (Cell.cnum q))).map formatDateToYYYYMMDD
    | v => (parseIsoDate (strRender v)).map formatDateToYYYYMMDD
  else none

/-- The date resolution as the specification claim words it: path (1) for
date cells, path (2) for every numeric cell (no greater-than-one guard),
path (3) for the rest. -/
def resolveFactsDateClaim (dateValue : Cell) : Option Str :=
  match dateValue with
  | Cell.cdate ms => some (formatDateToYYYYMMDD ms)
  | Cell.cnum q => some (formatDateToYYYYMMDD (excelSerialDateToJSDate q))
  | v => (parseIsoDate (strRender v)).map formatDateToYYYYMMDD

/-- The record built for one Facts data row. -/
def mkFactsRecord (r : RowObj) : RowObj :=
  [("item_uid".toList, rowGet r "Product UID*".toList),
   ("store_uid".toList, rowGet r "Store UID*".toList),
   ("date".toList,
     match resolveFactsDate (rowGet r "Date*".toList) with
     | none => Cell.cnull
     | some s => Cell.cstr s),
   ("stock".toList, optRat (parseNumOrNull (rowGet r "Stock".toList))),
   ("sold_qty".toList, optRat (parseNumOrNull (rowGet r "Out sale".toList))),
   ("revenue".toList, optRat (parseNumOrNull (rowGet r "Revenue".toList))),
   ("cogs".toList, optRat (parseNumOrNull (rowGet r "COGS".toList)))]

/-- The mandatory-field filter on built Facts records. -/
def factsKeeps (rec : RowObj) : Bool :=
  truthy (rowGet rec "item_uid".toList)
    && truthy (rowGet rec "store_uid".toList)
    && truthy (rowGet rec "date".toList)

/-- The Facts row loop: map rows to records, keep those with item id,
store id and date all present. -/
def processFactsRows (rows : List RowObj) : List RowObj :=
  (rows.map mkFactsRecord).filter factsKeeps

/-- Concrete Facts row whose date cell is the numeric serial `1`. -/
def rowFactsSerialOne : RowObj :=
  [("Product UID*".toList, Cell.cstr "I1".toList),
   ("Store UID*".toList, Cell.cstr "S1".toList),
   ("Date*".toList, Cell.cnum (mkRat 1 1))]

/-- C3 counterexample: the source restricts the serial path to numeric
values strictly greater than 1, so the numeric date cell `1` is handed to
the string parse (which fails) and the row is dropped, while the claim's
unguarded serial path resolves it to `1899-12-31`. -/
theorem c3_facts_date_counterexample :
    resolveFactsDate (Cell.cnum (mkRat 1 1)) = none ∧
    resolveFactsDateClaim (Cell.cnum (mkRat 1 1)) = some "1899-12-31".toList ∧
    processFactsRows [rowFactsSerialOne] = [] := by
  decide

/-- C3 (amended): a Facts date cell is resolved by trying, in order, (1) an
already-typed date value, (2) a numeric value *strictly greater than 1* as
a spreadsheet serial (epoch offset 25569 days, truncated to a calendar
date), (3) a generic string-to-date parse of the cell's string form (also
for numeric values `≤ 1`); a falsy cell (`null`, `0`, the empty string)
yields null directly; a null date causes the row to be dropped, so every
emitted Facts record has truthy `item_uid`, `store_uid` and a non-null
`date`. -/
theorem c3_facts_date_amended :
    (∀ ms : Int, resolveFactsDate (Cell.cdate ms)
        = some (formatDateToYYYYMMDD ms)) ∧
    (∀ q : Rat, rLt (mkRat 1 1) q = true →
        resolveFactsDate (Cell.cnum q)
          = some (formatDateToYYYYMMDD (excelSerialDateToJSDate q))) ∧
    (∀ q : Rat, q ≠ 0 → rLt (mkRat 1 1) q = false →
        resolveFactsDate (Cell.cnum q)
          = (parseIsoDate (ratToChars q)).map formatDateToYYYYMMDD) ∧
    (∀ s : Str, s ≠ [] → resolveFactsDate (Cell.cstr s)
        = (parseIsoDate s).map formatDateToYYYYMMDD) ∧
    resolveFactsDate Cell.cnull = none ∧
    (∀ r : RowObj, resolveFactsDate (rowGet r "Date*".toList) = none →
        factsKeeps (mkFactsRecord r) = false) ∧
    (∀ rows : List RowObj, ∀ rec ∈ processFactsRows rows,
        truthy (rowGet rec "item_uid".toList) = true ∧
        truthy (rowGet rec "store_uid".toList) = true ∧
        ∃ s : Str, rowGet rec "date".toList = Cell.cstr s) := by
  refine ⟨fun ms => rfl, ?_, ?_, ?_, rfl, ?_, ?_⟩
  · intro q hq
    have hq0 : q ≠ 0 := by
      intro h0
      rw [h0] at hq
      exact absurd hq (by decide)
    unfold resolveFactsDate
    rw [if_pos (by simpa [truthy] using hq0)]
    dsimp only
    rw [if_pos hq]
  · intro q hq0 hq
    unfold resolveFactsDate
    rw [if_pos (by simpa [truthy] using hq0)]
    dsimp only
    rw [if_neg (by rw [hq]; simp)]
    rfl
  · intro s hs
    unfold resolveFactsDate
    rw [if_pos (by simpa [truthy, List.isEmpty_iff] using hs)]
    rfl
  · intro r hnone
    have hdate : rowGet (mkFactsRecord r) "date".toList = Cell.cnull := by
      rw [show rowGet (mkFactsRecord r) "date".toList
          = (match resolveFactsDate (rowGet r "Date*".toList) with
             | none => Cell.cnull
             | some s => Cell.cstr s) from rfl, hnone]
    unfold factsKeeps
    rw [hdate]
    simp [truthy]
  · intro rows rec hrec
    unfold processFactsRows at hrec
    have hkeep := (List.mem_filter.mp hrec).2
    have hmem := (List.mem_filter.mp hrec).1
    unfold factsKeeps at hkeep
    simp only [Bool.and_eq_true] at hkeep
    refine ⟨hkeep.1.1, hkeep.1.2, ?_⟩
    rcases List.mem_map.mp hmem with ⟨r, _, rfl⟩
    have hdate : rowGet (mkFactsRecord r) "date".toList
        = (match resolveFactsDate (rowGet r "Date*".toList) with
           | none => Cell.cnull
           | some s => Cell.cstr s) := rfl
    rcases hres : resolveFactsDate (rowGet r "Date*".toList) with _ | s
    · rw [hres] at hdate
      rw [hdate] at hkeep
      exact absurd hkeep.2 (by decide)
    · exact ⟨s, by rw [hdate, hres]⟩

theorem c3_facts_date_amended_witness :
    resolveFactsDate (Cell.cnum (mkRat 45000 1))
      = some (formatDateToYYYYMMDD (excelSerialDateToJSDate (mkRat 45000 1))) :=
  c3_facts_date_amended.2.1 (mkRat 45000 1) (by decide)

/-- C10: a Facts measure cell that parses to exactly `0` is emitted as
`null`, indistinguishable from an unparseable cell, so the facts output
never carries the numeric value `0` in a measure column. -/
theorem c10_facts_zero_measures :
    (∀ rows : List RowObj, ∀ rec ∈ processFactsRows rows,
      rowGet rec "stock".toList ≠ Cell.cnum 0 ∧
      rowGet rec "sold_qty".toList ≠ Cell.cnum 0 ∧
      rowGet rec "revenue".toList ≠ Cell.cnum 0 ∧
      rowGet rec "cogs".toList ≠ Cell.cnum 0) ∧
    (∀ v : Cell,
      jsParseFloat (replaceFirst ',' '.'
          (strRender (if truthy v then v else Cell.cstr "0".toList))) = some 0 →
      parseNumOrNull v = none) ∧
    parseNumOrNull (Cell.cstr "0".toList) = none ∧
    parseNumOrNull (Cell.cstr "abc".toList) = none := by
  refine ⟨?_, ?_, by decide, by decide⟩
  · intro rows rec hrec
    unfold processFactsRows at hrec
    rcases List.mem_map.mp (List.mem_filter.mp hrec).1 with ⟨r, _, rfl⟩
    refine ⟨?_, ?_, ?_, ?_⟩
    · rw [show rowGet (mkFactsRecord r) "stock".toList
          = optRat (parseNumOrNull (rowGet r "Stock".toList)) from rfl]
      exact optRat_ne_zero _ (parseNumOrNull_ne_zero _)
    · rw [show rowGet (mkFactsRecord r) "sold_qty".toList
          = optRat (parseNumOrNull (rowGet r "Out sale".toList)) from rfl]
      exact optRat_ne_zero _ (parseNumOrNull_ne_zero _)
    · rw [show rowGet (mkFactsRecord r) "revenue".toList
          = optRat (parseNumOrNull (rowGet r "Revenue".toList)) from rfl]
      exact optRat_ne_zero _ (parseNumOrNull_ne_zero _)
    · rw [show rowGet (mkFactsRecord r) "cogs".toList
          = optRat (parseNumOrNull (rowGet r "COGS".toList)) from rfl]
      exact optRat_ne_zero _ (parseNumOrNull_ne_zero _)
  · intro v hv
    unfold parseNumOrNull
    dsimp only
    rw [hv]
    simp

/-- Concrete Facts row with a zero stock cell, surviving the mandatory
filter. -/
def rowFactsZeroStock : RowObj :=
  [("Product UID*".toList, Cell.cstr "I1".toList),
   ("Store UID*".toList, Cell.cstr "S1".toList),
   ("Date*".toList, Cell.cstr "2023-03-15".toList),
   ("Stock".toList, Cell.cstr "0".toList)]

theorem c10_facts_zero_measures_witness :
    rowGet (mkFactsRecord rowFactsZeroStock) "stock".toList ≠ Cell.cnum 0 ∧
    rowGet (mkFactsRecord rowFactsZeroStock) "sold_qty".toList ≠ Cell.cnum 0 ∧
    rowGet (mkFactsRecord rowFactsZeroStock) "revenue".toList ≠ Cell.cnum 0 ∧
    rowGet (mkFactsRecord rowFactsZeroStock) "cogs".toList ≠ Cell.cnum 0 :=
  c10_facts_zero_measures.1 [rowFactsZeroStock]
    (mkFactsRecord rowFactsZeroStock) (by decide)

-- Item-Master v1 extraction (`processItemMasterFile`, row loop).

/-- The v1 dimension idiom `parseFloat(String(v || '').replace(',', '.')) || 0`. -/
def parseNumOr0 (v : Cell) : Rat :=
  let s := strRender (if truthy v then v else Cell.cstr [])
  match jsParseFloat (replaceFirst ',' '.' s) with
  | none => mkRat 0 1
  | some q => q

/-- The v1 idiom `parseFloat(String(v || '').replace(',', '.')) || null`
(empty-string default instead of `'0'`). -/
def parseNumOrNullE (v : Cell) : Option Rat :=
  let s := strRender (if truthy v then v else Cell.cstr [])
  match jsParseFloat (replaceFirst ',' '.' s) with
  | none => none
  | some q => if q = 0 then none else some q

/-- The `Is fractional?` idiom: `v ? parseInt(String(v), 10) || 0 : 0`. -/
def parseFracFlag (v : Cell) : Int :=
  if truthy v then parseIntOr0 v else 0

/-- `Set.add`: appends on first sight, keeps insertion order. -/
def setAdd (l : List Str) (s : Str) : List Str :=
  if s ∈ l then l else l ++ [s]

/-- The v1 row id: `row['UID*']` when neither `null` nor `undefined`,
stringified and trimmed, rejected when empty. -/
def v1RowUid (r : RowObj) : Option Str :=
  match rowGet r "UID*".toList with
  | Cell.cnull => none
  | Cell.cundef => none
  | v =>
    let u := jsTrim (strRender v)
    if u.isEmpty then none else some u

/-- The synthetic main-unit id: the `Main Unit UID` cell when non-blank,
else `{uid}_{unitName}` when a unit name exists, else `{uid}_01`. -/
def v1MainUnit (r : RowObj) (uid : Str) : Cell :=
  let mu := rowGet r "Main Unit UID".toList
  if mu = Cell.cnull ∨ mu = Cell.cundef ∨ (jsTrim (strRender mu)).isEmpty then
    let unitName := rowGet r "Unit".toList
    if truthy unitName ∧ ¬(jsTrim (strRender unitName)).isEmpty then
      Cell.cstr (uid ++ '_' :: jsTrim (strRender unitName))
    else Cell.cstr (uid ++ "_01".toList)
  else mu

/-- The masteritems record pushed on the first occurrence of a v1 item id. -/
def mkV1ItemRecord (uid : Str) (r : RowObj) : RowObj :=
  [("item_uid".toList, Cell.cstr uid),
   ("name".toList, rowGet r "Product name*".toList),
   ("manufacturer_uid".toList, rowGet r "Manufacturer".toList),
   ("brand_uid".toList, rowGet r "Brand".toList),
   ("is_fractional".toList,
     Cell.cnum (mkRat (parseFracFlag (rowGet r "Is fractional?".toList)) 1)),
   ("additional_1".toList, rowGet r "Segment Description".toList),
   ("additional_2".toList, rowGet r "Family Description".toList),
   ("additional_3".toList, rowGet r "Class Description".toList),
   ("additional_4".toList, rowGet r "Brick Description".toList),
   ("main_unit_uid".toList, v1MainUnit r uid),
   ("erp_category_uid".toList, rowGet r "Brick Code".toList)]

/-- The barcode record pushed for every v1 row with a truthy barcode cell. -/
def mkBarcodeRecord (uid : Str) (r : RowObj) : RowObj :=
  [("item_uid".toList, Cell.cstr uid),
   ("barcode".toList, rowGet r "Barcode".toList),
   ("is_main".toList, Cell.cnum (mkRat 1 1))]

/-- The v1 dimension record (fixed `|| 0` defaults for width/height/depth,
`|| null` for netweight/volume). -/
def mkV1DimensionRecord (uid : Str) (mainUnit : Cell) (r : RowObj) : RowObj :=
  [("item_uid".toList, Cell.cstr uid),
   ("unit_name".toList, rowGet r "Unit".toList),
   ("width".toList, Cell.cnum (parseNumOr0 (rowGet r "Width".toList))),
   ("height".toList, Cell.cnum (parseNumOr0 (rowGet r "Height".toList))),
   ("depth".toList, Cell.cnum (parseNumOr0 (rowGet r "Length".toList))),
   ("netweight".toList, optRat (parseNumOrNullE (rowGet r "Netweight".toList))),
   ("volume".toList, optRat (parseNumOrNullE (rowGet r "Volume".toList))),
   ("dimension_uid".toList, mainUnit),
   ("coef".toList, Cell.cnum (mkRat 1 1)),
   ("is_deleted".toList, Cell.cnum (mkRat 0 1))]

/-- The four fixed v1 category level names, shallowest first. -/
def v1Levels : List Str :=
  ["Segment".toList, "Family".toList, "Class".toList, "Brick".toList]

/-- Registration of one v1 category level: the literal `{Level} Code` cell
keys the entry, and the parent is read from the next-shallower level's code
column on the same row (no chain threading). -/
def v1CatStep (r : RowObj) (acc : List (Str × RowObj)) (idx : Nat) :
    List (Str × RowObj) :=
  let levelName := v1Levels.getD idx []
  let catUid := rowGet r (levelName ++ " Code".toList)
  if truthy catUid && !mapHas acc (strRender catUid) then
    acc ++ [(strRender catUid,
      [("erp_category_uid".toList, catUid),
       ("name".toList, rowGet r (levelName ++ " Description".toList)),
       ("parent_category_uid".toList,
         if 0 < idx then
           rowGet r ((v1Levels.getD (idx - 1) []) ++ " Code".toList)
         else Cell.cnull)])]
  else acc

/-- The v1 per-run accumulators: output collections plus the dedup sets. -/
structure V1Acc where
  masteritems : List RowObj
  barcodes : List RowObj
  dimensions : List RowObj
  seenBrands : List Str
  seenManufacturers : List Str
  seenErpCategories : List (Str × RowObj)
  seenUids : List Str
deriving DecidableEq, Repr

/-- One step of the v1 row loop: rows without a usable id are skipped; a
first-seen id pushes the item record; barcode, brand, dimension, category
and manufacturer side records accrue for every valid row. -/
def v1Step (acc : V1Acc) (r : RowObj) : V1Acc :=
  match v1RowUid r with
  | none => acc
  | some uid =>
    let mainUnit := v1MainUnit r uid
    let acc1 :=
      if uid ∈ acc.seenUids then acc
      else
        { acc with masteritems := acc.masteritems ++ [mkV1ItemRecord uid r], seenUids := acc.seenUids ++ [uid] }
    let acc2 :=
      if truthy (rowGet r "Barcode".toList) then
        { acc1 with barcodes := acc1.barcodes ++ [mkBarcodeRecord uid r] }
      else acc1
    let acc3 :=
      if truthy (rowGet r "Brand".toList) then
        { acc2 with seenBrands := setAdd acc2.seenBrands (strRender (rowGet r "Brand".toList)) }
      else acc2
    let acc4 :=
      if truthy (rowGet r "Unit".toList) then
        { acc3 with dimensions := acc3.dimensions ++ [mkV1DimensionRecord uid mainUnit r] }
      else acc3
    let acc5 :=
      { acc4 with seenErpCategories := [0, 1, 2, 3].foldl (v1CatStep r) acc4.seenErpCategories }
    if truthy (rowGet r "Manufacturer".toList) then
      { acc5 with seenManufacturers := setAdd acc5.seenManufacturers (strRender (rowGet r "Manufacturer".toList)) }
    else acc5

/-- The v1 row loop over all data rows, from empty accumulators. -/
def processItemMasterRows (rows : List RowObj) : V1Acc :=
  rows.foldl v1Step ⟨[], [], [], [], [], [], []⟩

/-- First-occurrence deduplication relative to an already-seen set. -/
def dedupFirstAux (seen : List Str) : List Str → List Str
  | [] => []
  | u :: rest =>
    if u ∈ seen then dedupFirstAux seen rest
    else u :: dedupFirstAux (seen ++ [u]) rest

/-- First-occurrence deduplication of a list of ids. -/
def dedupFirst (l : List Str) : List Str := dedupFirstAux [] l

/-- The item records contributed by the v1 loop over `rows`, given the set
of ids already seen. -/
def v1NewItems (seen : List Str) : List RowObj → List RowObj
  | [] => []
  | r :: rest =>
    match v1RowUid r with
    | none => v1NewItems seen rest
    | some uid =>
      if uid ∈ seen then v1NewItems seen rest
      else mkV1ItemRecord uid r :: v1NewItems (seen ++ [uid]) rest

theorem v1Step_masteritems_seen (acc : V1Acc) (r : RowObj) :
    (v1Step acc r).masteritems
        = (match v1RowUid r with
           | none => acc.masteritems
           | some uid =>
             if uid ∈ acc.seenUids then acc.masteritems
             else acc.masteritems ++ [mkV1ItemRecord uid r]) ∧
    (v1Step acc r).seenUids
        = (match v1RowUid r with
           | none => acc.seenUids
           | some uid =>
             if uid ∈ acc.seenUids then acc.seenUids
             else acc.seenUids ++ [uid]) := by
  unfold v1Step
  rcases v1RowUid r with _ | uid
  · exact ⟨rfl, rfl⟩
  · dsimp only
    by_cases hseen : uid ∈ acc.seenUids
    · constructor <;>
        simp [apply_ite V1Acc.masteritems, apply_ite V1Acc.seenUids, hseen]
    · constructor <;>
        simp [apply_ite V1Acc.masteritems, apply_ite V1Acc.seenUids, hseen]

theorem v1_fold_masteritems :
    ∀ (rows : List RowObj) (acc : V1Acc),
      (rows.foldl v1Step acc).masteritems
        = acc.masteritems ++ v1NewItems acc.seenUids rows := by
  intro rows
  induction rows with
  | nil => intro acc; simp [v1NewItems]
  | cons r rest ih =>
    intro acc
    rw [List.foldl_cons, ih]
    rcases hu : v1RowUid r with _ | uid
    · rw [(v1Step_masteritems_seen acc r).1, (v1Step_masteritems_seen acc r).2, hu]
      dsimp only
      rw [show v1NewItems acc.seenUids (r :: rest)
          = v1NewItems acc.seenUids rest from by rw [v1NewItems, hu]]
    · by_cases hseen : uid ∈ acc.seenUids
      · rw [(v1Step_masteritems_seen acc r).1, (v1Step_masteritems_seen acc r).2, hu]
        dsimp only
        rw [if_pos hseen, if_pos hseen]
        rw [show v1NewItems acc.seenUids (r :: rest)
            = v1NewItems acc.seenUids rest from by rw [v1NewItems, hu]; simp [hseen]]
      · rw [(v1Step_masteritems_seen acc r).1, (v1Step_masteritems_seen acc r).2, hu]
        dsimp only
        rw [if_neg hseen, if_neg hseen]
        rw [show v1NewItems acc.seenUids (r :: rest)
            = mkV1ItemRecord uid r :: v1NewItems (acc.seenUids ++ [uid]) rest from by
          rw [v1NewItems, hu]; simp [hseen]]
        simp

theorem v1NewItems_ids :
    ∀ (rows : List RowObj) (seen : List Str),
      (v1NewItems seen rows).map (fun rec => rowGet rec "item_uid".toList)
        = (dedupFirstAux seen (rows.filterMap v1RowUid)).map Cell.cstr := by
  intro rows
  induction rows with
  | nil => intro seen; rfl
  | cons r rest ih =>
    intro seen
    rcases hu : v1RowUid r with _ | uid
    · rw [show v1NewItems seen (r :: rest) = v1NewItems seen rest from by
          rw [v1NewItems, hu],
        show (r :: rest).filterMap v1RowUid = rest.filterMap v1RowUid from by
          rw [List.filterMap_cons, hu]]
      exact ih seen
    · rw [show (r :: rest).filterMap v1RowUid
          = uid :: rest.filterMap v1RowUid from by
        rw [List.filterMap_cons, hu]]
      by_cases hseen : uid ∈ seen
      · rw [show v1NewItems seen (r :: rest) = v1NewItems seen rest from by
            rw [v1NewItems, hu]; simp [hseen],
          show dedupFirstAux seen (uid :: rest.filterMap v1RowUid)
            = dedupFirstAux seen (rest.filterMap v1RowUid) from by
            rw [dedupFirstAux]; simp [hseen]]
        exact ih seen
      · rw [show v1NewItems seen (r :: rest)
            = mkV1ItemRecord uid r :: v1NewItems (seen ++ [uid]) rest from by
            rw [v1NewItems, hu]; simp [hseen],
          show dedupFirstAux seen (uid :: rest.filterMap v1RowUid)
            = uid :: dedupFirstAux (seen ++ [uid]) (rest.filterMap v1RowUid) from by
            rw [dedupFirstAux]; simp [hseen]]
        rw [List.map_cons, List.map_cons, ih (seen ++ [uid])]
        rfl

theorem dedupFirstAux_mem :
    ∀ (l : List Str) (seen : List Str) (u : Str),
      u ∈ dedupFirstAux seen l ↔ u ∈ l ∧ u ∉ seen := by
  intro l
  induction l with
  | nil => intro seen u; simp [dedupFirstAux]
  | cons a rest ih =>
    intro seen u
    rw [dedupFirstAux]
    by_cases ha : a ∈ seen
    · rw [if_pos ha, ih]
      constructor
      · rintro ⟨h1, h2⟩
        exact ⟨List.mem_cons_of_mem a h1, h2⟩
      · rintro ⟨h1, h2⟩
        rcases List.mem_cons.mp h1 with rfl | h3
        · exact absurd ha h2
        · exact ⟨h3, h2⟩
    · rw [if_neg ha]
      constructor
      · intro h
        rcases List.mem_cons.mp h with rfl | h2
        · exact ⟨List.mem_cons_self _ _, ha⟩
        · rcases (ih (seen ++ [a]) u).mp h2 with ⟨h3, h4⟩
          simp only [List.mem_append, List.mem_singleton, not_or] at h4
          exact ⟨List.mem_cons_of_mem a h3, h4.1⟩
      · rintro ⟨h1, h2⟩
        rcases List.mem_cons.mp h1 with rfl | h3
        · exact List.mem_cons_self _ _
        · by_cases hau : u = a
          · exact hau ▸ List.mem_cons_self _ _
          · refine List.mem_cons_of_mem _ ((ih (seen ++ [a]) u).mpr ⟨h3, ?_⟩)
            simp only [List.mem_append, List.mem_singleton, not_or]
            exact ⟨h2, hau⟩

theorem dedupFirstAux_nodup :
    ∀ (l : List Str) (seen : List Str),
      (dedupFirstAux seen l).Nodup ∧ ∀ u ∈ dedupFirstAux seen l, u ∉ seen := by
  intro l
  induction l with
  | nil => intro seen; simp [dedupFirstAux]
  | cons a rest ih =>
    intro seen
    rw [dedupFirstAux]
    by_cases ha : a ∈ seen
    · rw [if_pos ha]
      exact ih seen
    · rw [if_neg ha]
      refine ⟨List.nodup_cons.mpr ⟨?_, (ih (seen ++ [a])).1⟩, ?_⟩
      · intro hmem
        have := (ih (seen ++ [a])).2 a hmem
        simp at this
      · intro u hu
        rcases List.mem_cons.mp hu with rfl | h2
        · exact ha
        · have := (ih (seen ++ [a])).2 u h2
          simp only [List.mem_append, List.mem_singleton, not_or] at this
          exact this.1

theorem v1NewItems_first :
    ∀ (rows : List RowObj) (seen : List Str) (rec : RowObj),
      rec ∈ v1NewItems seen rows →
      ∃ uid r, v1RowUid r = some uid ∧ uid ∉ seen ∧
        rows.find? (fun r' => decide (v1RowUid r' = some uid)) = some r ∧
        rec = mkV1ItemRecord uid r := by
  intro rows
  induction rows with
  | nil => intro seen rec h; simp [v1NewItems] at h
  | cons r0 rest ih =>
    intro seen rec h
    rcases hu : v1RowUid r0 with _ | uid0
    · rw [show v1NewItems seen (r0 :: rest) = v1NewItems seen rest from by
          rw [v1NewItems, hu]] at h
      rcases ih seen rec h with ⟨uid, r, h1, h2, h3, h4⟩
      refine ⟨uid, r, h1, h2, ?_, h4⟩
      rw [List.find?_cons_of_neg _ (by simp [hu]), h3]
    · by_cases hseen : uid0 ∈ seen
      · rw [show v1NewItems seen (r0 :: rest) = v1NewItems seen rest from by
            rw [v1NewItems, hu]; simp [hseen]] at h
        rcases ih seen rec h with ⟨uid, r, h1, h2, h3, h4⟩
        refine ⟨uid, r, h1, h2, ?_, h4⟩
        have hne : uid ≠ uid0 := fun he => h2 (he ▸ hseen)
        rw [List.find?_cons_of_neg _ (by simp [hu]; exact fun he => hne he.symm), h3]
      · rw [show v1NewItems seen (r0 :: rest)
            = mkV1ItemRecord uid0 r0 :: v1NewItems (seen ++ [uid0]) rest from by
            rw [v1NewItems, hu]; simp [hseen]] at h
        rcases List.mem_cons.mp h with rfl | h2
        · exact ⟨uid0, r0, hu, hseen,
            List.find?_cons_of_pos _ (by simp [hu]), rfl⟩
        · rcases ih (seen ++ [uid0]) rec h2 with ⟨uid, r, h1, h3, h4, h5⟩
          simp only [List.mem_append, List.mem_singleton, not_or] at h3
          refine ⟨uid, r, h1, h3.1, ?_, h5⟩
          rw [List.find?_cons_of_neg _ (by simp [hu]; exact fun he => h3.2 he.symm), h4]

/-- The barcode side record a v1 row contributes, if any (independent of
the item-id dedup). -/
def v1BarcodeOf (r : RowObj) : Option RowObj :=
  match v1RowUid r with
  | none => none
  | some uid =>
    if truthy (rowGet r "Barcode".toList) then some (mkBarcodeRecord uid r)
    else none

theorem v1Step_barcodes (acc : V1Acc) (r : RowObj) :
    (v1Step acc r).barcodes = acc.barcodes ++ (v1BarcodeOf r).toList := by
  unfold v1Step v1BarcodeOf
  rcases v1RowUid r with _ | uid
  · simp
  · dsimp only
    by_cases hseen : uid ∈ acc.seenUids <;>
      simp only [apply_ite V1Acc.barcodes, hseen, if_true, if_false, ite_self] <;>
        split <;> simp

theorem v1_fold_barcodes :
    ∀ (rows : List RowObj) (acc : V1Acc),
      (rows.foldl v1Step acc).barcodes
        = acc.barcodes ++ rows.filterMap v1BarcodeOf := by
  intro rows
  induction rows with
  | nil => intro acc; simp
  | cons r rest ih =>
    intro acc
    rw [List.foldl_cons, ih, v1Step_barcodes, List.filterMap_cons]
    rcases v1BarcodeOf r with _ | b <;> simp

/-- C5: the v1 masteritems output holds exactly one record per distinct
trimmed item id of the input rows — its id list is the first-occurrence
deduplication of the valid row ids (duplicate-free, covering every valid
id) — the record for an id is built from the first row bearing that id,
and later rows with the same id still contribute their side records (shown
for barcodes: one per valid row with a barcode, regardless of the dedup). -/
theorem c5_v1_item_dedup (rows : List RowObj) :
    ((processItemMasterRows rows).masteritems.map
        (fun rec => rowGet rec "item_uid".toList)
      = (dedupFirst (rows.filterMap v1RowUid)).map Cell.cstr) ∧
    (dedupFirst (rows.filterMap v1RowUid)).Nodup ∧
    (∀ u, u ∈ dedupFirst (rows.filterMap v1RowUid)
        ↔ u ∈ rows.filterMap v1RowUid) ∧
    (∀ rec ∈ (processItemMasterRows rows).masteritems, ∃ uid r,
        v1RowUid r = some uid ∧
        rows.find? (fun r' => decide (v1RowUid r' = some uid)) = some r ∧
        rec = mkV1ItemRecord uid r) ∧
    (processItemMasterRows rows).barcodes = rows.filterMap v1BarcodeOf := by
  refine ⟨?_, (dedupFirstAux_nodup _ []).1, ?_, ?_, ?_⟩
  · unfold processItemMasterRows dedupFirst
    rw [v1_fold_masteritems rows ⟨[], [], [], [], [], [], []⟩]
    simpa using v1NewItems_ids rows []
  · intro u
    unfold dedupFirst
    rw [dedupFirstAux_mem (rows.filterMap v1RowUid) [] u]
    exact and_iff_left (List.not_mem_nil u)
  · intro rec hrec
    unfold processItemMasterRows at hrec
    rw [v1_fold_masteritems rows ⟨[], [], [], [], [], [], []⟩] at hrec
    dsimp only at hrec
    rw [List.nil_append] at hrec
    rcases v1NewItems_first rows [] rec hrec with ⟨uid, r, h1, _, h3, h4⟩
    exact ⟨uid, r, h1, h3, h4⟩
  · unfold processItemMasterRows
    rw [v1_fold_barcodes rows ⟨[], [], [], [], [], [], []⟩]
    simp

/-- First concrete v1 row sharing the id `X1`. -/
def rowV1A : RowObj :=
  [("UID*".toList, Cell.cstr "X1".toList),
   ("Barcode".toList, Cell.cstr "111".toList)]

/-- Second concrete v1 row sharing the id `X1` with a distinct barcode. -/
def rowV1B : RowObj :=
  [("UID*".toList, Cell.cstr "X1".toList),
   ("Barcode".toList, Cell.cstr "222".toList)]

theorem c5_v1_item_dedup_witness :
    ∃ uid r, v1RowUid r = some uid ∧
      [rowV1A, rowV1B].find? (fun r' => decide (v1RowUid r' = some uid))
        = some r ∧
      mkV1ItemRecord "X1".toList rowV1A = mkV1ItemRecord uid r :=
  (c5_v1_item_dedup [rowV1A, rowV1B]).2.2.2.1
    (mkV1ItemRecord "X1".toList rowV1A) (by decide)

-- Item-Master v2 extraction (`processItemMasterV2File`, row loop).

/-- Non-blank test `val !== null && val !== undefined && String(val).trim() !== ''`. -/
def nonblank (c : Cell) : Bool :=
  !(c = Cell.cnull) && !(c = Cell.cundef) && !(jsTrim (strRender c)).isEmpty

/-- The UID-first-else-name fallback: the dedicated UID cell when non-blank,
else the name cell when non-blank, else nothing. -/
def uidFirstElseName (uidVal nameVal : Cell) : Option Cell :=
  if nonblank uidVal then some uidVal
  else if nonblank nameVal then some nameVal
  else none

/-- A nullable value as a record field (`null` when absent). -/
def optCell : Option Cell → Cell
  | none => Cell.cnull
  | some v => v

/-- The v2 row filter: a usable primary id. -/
def v2RowValid (r : RowObj) : Bool := nonblank (rowGet r "UID*".toList)

/-- The `Category level {i} UID` column label. -/
def catUidCol (i : Nat) : Str :=
  "Category level ".toList ++ natToChars i ++ " UID".toList

/-- The `Category level {i}` name column label. -/
def catNameCol (i : Nat) : Str := "Category level ".toList ++ natToChars i

/-- The resolved id of category level `i` on a row (UID-first-else-name). -/
def v2CatEff (r : RowObj) (i : Nat) : Option Cell :=
  uidFirstElseName (rowGet r (catUidCol i)) (rowGet r (catNameCol i))

/-- The item's category id: the most specific populated UID column scanned
from level 6 down to 1, else the most specific populated name column. -/
def v2ErpCategory (r : RowObj) : Option Cell :=
  match [6, 5, 4, 3, 2, 1].findSome? (fun i =>
      if nonblank (rowGet r (catUidCol i)) then some (rowGet r (catUidCol i))
      else none) with
  | some v => some v
  | none =>
    [6, 5, 4, 3, 2, 1].findSome? (fun i =>
      if nonblank (rowGet r (catNameCol i)) then some (rowGet r (catNameCol i))
      else none)

/-- The v2 main-unit id: `row['Main Unit UID'] || row['Main unit UID']`,
falling back to `{uid}_{unitName}` / `{uid}_01` when blank. -/
def v2MainUnit (r : RowObj) (item_uid : Str) : Cell :=
  let mu0 := rowGet r "Main Unit UID".toList
  let mu := if truthy mu0 then mu0 else rowGet r "Main unit UID".toList
  if mu = Cell.cnull ∨ mu = Cell.cundef ∨ (jsTrim (strRender mu)).isEmpty then
    let unitName := rowGet r "Unit".toList
    if truthy unitName ∧ ¬(jsTrim (strRender unitName)).isEmpty then
      Cell.cstr (item_uid ++ '_' :: jsTrim (strRender unitName))
    else Cell.cstr (item_uid ++ "_01".toList)
  else mu

/-- The v2 `Add N` idiom `parseFloat(String(v).replace(',', '.')) || null`
(no empty-string default: a null cell stringifies to `"null"` and fails). -/
def parseNumOrNullS (v : Cell) : Option Rat :=
  match jsParseFloat (replaceFirst ',' '.' (strRender v)) with
  | none => none
  | some q => if q = 0 then none else some q

/-- The v2 effective brand id of a row. -/
def v2EffBrand (r : RowObj) : Option Cell :=
  uidFirstElseName (rowGet r "Brand UID".toList) (rowGet r "Brand".toList)

/-- The v2 effective manufacturer id of a row. -/
def v2EffManuf (r : RowObj) : Option Cell :=
  uidFirstElseName (rowGet r "Manufacturer UID".toList)
    (rowGet r "Manufacturer".toList)

/-- The `Add N` column label. -/
def addCol (n : Nat) : Str := "Add ".toList ++ natToChars n

/-- The numeric `additional_{n}` field of the v2 item record. -/
def v2AddNum (r : RowObj) (n : Nat) : Cell :=
  optRat (parseNumOrNullS (rowGet r (addCol n)))

/-- The masteritems record pushed for every valid v2 row (no dedup). -/
def mkV2ItemRecord (r : RowObj) : RowObj :=
  [("item_uid".toList, Cell.cstr (strRender (rowGet r "UID*".toList))),
   ("name".toList, rowGet r "Product name*".toList),
   ("manufacturer_uid".toList, optCell (v2EffManuf r)),
   ("brand_uid".toList, optCell (v2EffBrand r)),
   ("is_fractional".toList,
     Cell.cnum (mkRat (parseIntOr0 (rowGet r "Is fractional?".toList)) 1)),
   ("main_unit_uid".toList, v2MainUnit r (strRender (rowGet r "UID*".toList))),
   ("is_deleted".toList,
     Cell.cnum (mkRat (parseIntOr0 (rowGet r "To delete".toList)) 1)),
   ("additional_1".toList, v2AddNum r 1),
   ("additional_2".toList, rowGet r (addCol 2)),
   ("additional_3".toList, rowGet r (addCol 3)),
   ("additional_4".toList, rowGet r (addCol 4)),
   ("additional_5".toList, v2AddNum r 5),
   ("additional_6".toList, v2AddNum r 6),
   ("additional_7".toList, rowGet r (addCol 7)),
   ("additional_8".toList, v2AddNum r 8),
   ("additional_9".toList, v2AddNum r 9),
   ("additional_10".toList, v2AddNum r 10),
   ("additional_11".toList, v2AddNum r 11),
   ("additional_12".toList, v2AddNum r 12),
   ("additional_13".toList, v2AddNum r 13),
   ("additional_14".toList, v2AddNum r 14),
   ("additional_15".toList, v2AddNum r 15),
   ("additional_16".toList, v2AddNum r 16),
   ("additional_17".toList, v2AddNum r 17),
   ("additional_18".toList, v2AddNum r 18),
   ("additional_19".toList, v2AddNum r 19),
   ("additional_20".toList, v2AddNum r 20),
   ("erp_category_uid".toList, optCell (v2ErpCategory r))]

/-- The brand entry registered on first sight of an effective brand id. -/
def mkV2BrandRecord (r : RowObj) : RowObj :=
  [("brand_uid".toList, optCell (v2EffBrand r)),
   ("name".toList,
     if truthy (rowGet r "Brand".toList) then rowGet r "Brand".toList
     else optCell (v2EffBrand r)),
   ("is_deleted".toList, Cell.cnum (mkRat 0 1))]

/-- The manufacturer entry registered on first sight of an effective id. -/
def mkV2ManufRecord (r : RowObj) : RowObj :=
  [("manufacturer_uid".toList, optCell (v2EffManuf r)),
   ("name".toList,
     if truthy (rowGet r "Manufacturer".toList) then
       rowGet r "Manufacturer".toList
     else optCell (v2EffManuf r)),
   ("is_deleted".toList, Cell.cnum (mkRat 0 1))]

/-- The v2 dimension record. -/
def mkV2DimensionRecord (r : RowObj) : RowObj :=
  [("item_uid".toList, Cell.cstr (strRender (rowGet r "UID*".toList))),
   ("unit_name".toList, rowGet r "Unit".toList),
   ("width".toList,
     optRat (parseNumOrNullE (rowGet r "Width (cm, in)".toList))),
   ("height".toList,
     optRat (parseNumOrNullE (rowGet r "Height (cm, in)".toList))),
   ("depth".toList,
     optRat (parseNumOrNullE (rowGet r "Depth (cm, in)".toList))),
   ("coef".toList, Cell.cnum (mkRat 1 1)),
   ("is_deleted".toList, Cell.cnum (mkRat 0 1)),
   ("dimension_uid".toList,
     v2MainUnit r (strRender (rowGet r "UID*".toList)))]

/-- Registration of one v2 category level: threading state is the map and
the previous populated level's resolved id; a populated level inserts a
fresh entry, or replaces an existing entry whose name is null when this
row's name cell is not null — the replacement re-derives both the name and
the parent from this row. -/
def v2CatLevelStep (r : RowObj) (st : List (Str × RowObj) × Option Cell)
    (level : Nat) : List (Str × RowObj) × Option Cell :=
  match v2CatEff r level with
  | none => st
  | some eff =>
    let key := strRender eff
    let currentNameValue := rowGet r (catNameCol level)
    let doSet :=
      match mapGet st.1 key with
      | none => true
      | some e =>
        decide (rowGet e "name".toList = Cell.cnull)
          && !decide (currentNameValue = Cell.cnull)
    ((if doSet then
        mapSet st.1 key
          [("erp_category_uid".toList, eff),
           ("name".toList, currentNameValue),
           ("parent_category_uid".toList, optCell st.2)]
      else st.1),
     some eff)

/-- Category registration of one full row: levels 1 to 6 in ascending
order, the previous-populated-level id starting at null. -/
def registerV2Cats (m : List (Str × RowObj)) (r : RowObj) :
    List (Str × RowObj) :=
  ([1, 2, 3, 4, 5, 6].foldl (v2CatLevelStep r) (m, none)).1

/-- The v2 per-run accumulators. -/
structure V2Acc where
  masteritems : List RowObj
  barcodes : List RowObj
  dimensions : List RowObj
  brandsMap : List (Str × RowObj)
  manufacturersMap : List (Str × RowObj)
  erpCategoriesMap : List (Str × RowObj)
deriving DecidableEq, Repr

/-- One step of the v2 row loop, in source order: item record (always),
barcode, brand first-sight registration, dimension, the six category
levels, manufacturer first-sight registration. -/
def v2Step (acc : V2Acc) (r : RowObj) : V2Acc :=
  let acc1 := { acc with masteritems := acc.masteritems ++ [mkV2ItemRecord r] }
  let acc2 :=
    if truthy (rowGet r "Barcode".toList) then
      { acc1 with barcodes := acc1.barcodes ++
          [[("item_uid".toList, Cell.cstr (strRender (rowGet r "UID*".toList))),
            ("barcode".toList, rowGet r "Barcode".toList),
            ("is_main".toList, Cell.cnum (mkRat 1 1))]] }
    else acc1
  let acc3 :=
    match v2EffBrand r with
    | none => acc2
    | some eff =>
      if mapHas acc2.brandsMap (strRender eff) then acc2
      else { acc2 with brandsMap := acc2.brandsMap ++ [(strRender eff, mkV2BrandRecord r)] }
  let acc4 :=
    if truthy (rowGet r "Unit".toList) then
      { acc3 with dimensions := acc3.dimensions ++ [mkV2DimensionRecord r] }
    else acc3
  let acc5 := { acc4 with erpCategoriesMap := registerV2Cats acc4.erpCategoriesMap r }
  match v2EffManuf r with
  | none => acc5
  | some eff =>
    if mapHas acc5.manufacturersMap (strRender eff) then acc5
    else { acc5 with manufacturersMap := acc5.manufacturersMap ++ [(strRender eff, mkV2ManufRecord r)] }

/-- The v2 row loop: filter rows by a usable primary id, then fold. -/
def processItemMasterV2Rows (rows : List RowObj) : V2Acc :=
  (rows.filter v2RowValid).foldl v2Step ⟨[], [], [], [], [], []⟩

-- Keyed-map lemmas.

theorem mapHas_iff {α : Type} (m : List (Str × α)) (k : Str) :
    mapHas m k = true ↔ k ∈ m.map Prod.fst := by
  unfold mapHas
  rw [List.any_eq_true]
  constructor
  · rintro ⟨p, hp, he⟩
    simp only [decide_eq_true_eq] at he
    exact he ▸ List.mem_map_of_mem Prod.fst hp
  · intro h
    rcases List.mem_map.mp h with ⟨p, hp, rfl⟩
    exact ⟨p, hp, by simp⟩

theorem mapGet_some_mem_keys {α : Type} (m : List (Str × α)) (k : Str) (e : α)
    (h : mapGet m k = some e) : k ∈ m.map Prod.fst := by
  unfold mapGet at h
  rcases hf : m.find? (fun p => decide (p.1 = k)) with _ | p
  · rw [hf] at h
    simp at h
  · have hp := List.find?_some hf
    simp only [decide_eq_true_eq] at hp
    exact hp ▸ List.mem_map_of_mem Prod.fst (List.mem_of_find?_eq_some hf)

theorem find_repl_self {α : Type} (k : Str) (v : α) :
    ∀ m : List (Str × α), mapHas m k = true →
      (m.map (fun p => if p.1 = k then (k, v) else p)).find?
          (fun p => decide (p.1 = k)) = some (k, v) := by
  intro m
  induction m with
  | nil => intro h; simp [mapHas] at h
  | cons p t ih =>
    intro h
    by_cases hp : p.1 = k
    · rw [List.map_cons, if_pos hp, List.find?_cons_of_pos _ (by simp)]
    · have h' : mapHas t k = true := by
        unfold mapHas at h ⊢
        rw [List.any_cons] at h
        rcases hpa : (decide (p.1 = k)) with _ | _
        · rw [hpa, Bool.false_or] at h
          exact h
        · exact absurd (by simpa using hpa) hp
      rw [List.map_cons, if_neg hp, List.find?_cons_of_neg _ (by simp [hp])]
      exact ih h'

theorem find_none_of_not_has {α : Type} (k : Str) :
    ∀ m : List (Str × α), mapHas m k = false →
      m.find? (fun p => decide (p.1 = k)) = none := by
  intro m
  induction m with
  | nil => intro _; rfl
  | cons p t ih =>
    intro h
    unfold mapHas at h
    rw [List.any_cons] at h
    rcases hpa : (decide (p.1 = k)) with _ | _
    · rw [List.find?_cons_of_neg _ (by simp [hpa])]
      apply ih
      unfold mapHas
      rw [hpa, Bool.false_or] at h
      exact h
    · rw [hpa] at h
      simp at h

theorem find_append_some {α : Type} (p : α → Bool) :
    ∀ (l l2 : List α) (x : α), l.find? p = some x → (l ++ l2).find? p = some x := by
  intro l
  induction l with
  | nil => intro l2 x h; simp at h
  | cons a t ih =>
    intro l2 x h
    rcases hpa : p a with _ | _
    · rw [List.find?_cons_of_neg _ (by simp [hpa])] at h
      rw [List.cons_append, List.find?_cons_of_neg _ (by simp [hpa])]
      exact ih l2 x h
    · rw [List.find?_cons_of_pos _ hpa] at h
      rw [List.cons_append, List.find?_cons_of_pos _ hpa]
      exact h

theorem find_append_none {α : Type} (p : α → Bool) :
    ∀ (l l2 : List α), l.find? p = none → (l ++ l2).find? p = l2.find? p := by
  intro l
  induction l with
  | nil => intro l2 _; rfl
  | cons a t ih =>
    intro l2 h
    rcases hpa : p a with _ | _
    · rw [List.find?_cons_of_neg _ (by simp [hpa])] at h
      rw [List.cons_append, List.find?_cons_of_neg _ (by simp [hpa])]
      exact ih l2 h
    · rw [List.find?_cons_of_pos _ hpa] at h
      simp at h

theorem mapGet_set_self {α : Type} (m : List (Str × α)) (k : Str) (v : α) :
    mapGet (mapSet m k v) k = some v := by
  unfold mapSet mapGet
  by_cases h : mapHas m k = true
  · rw [if_pos h, find_repl_self k v m h]
    rfl
  · rw [if_neg h, find_append_none _ m _
      (find_none_of_not_has k m (Bool.not_eq_true _ ▸ h)),
      List.find?_cons_of_pos _ (by simp)]
    rfl

theorem find_repl_other {α : Type} (k' k : Str) (v : α) (h : k' ≠ k) :
    ∀ m : List (Str × α),
      (m.map (fun p => if p.1 = k' then (k', v) else p)).find?
          (fun p => decide (p.1 = k))
        = (m.find? (fun p => decide (p.1 = k))).map
            (fun p => if p.1 = k' then (k', v) else p) := by
  intro m
  induction m with
  | nil => rfl
  | cons p t ih =>
    by_cases hp : p.1 = k'
    · have hpk : ¬(p.1 = k) := fun he => h (hp ▸ he)
      rw [List.map_cons, if_pos hp,
        List.find?_cons_of_neg _ (by simp [h]),
        List.find?_cons_of_neg _ (by simp [hpk]), ih]
    · by_cases hpk : p.1 = k
      · rw [List.map_cons, if_neg hp,
          List.find?_cons_of_pos _ (by simp [hpk]),
          List.find?_cons_of_pos _ (by simp [hpk])]
        simp [hp]
      · rw [List.map_cons, if_neg hp,
          List.find?_cons_of_neg _ (by simp [hpk]),
          List.find?_cons_of_neg _ (by simp [hpk]), ih]

theorem mapGet_set_other {α : Type} (m : List (Str × α)) (k' k : Str) (v : α)
    (h : k' ≠ k) : mapGet (mapSet m k' v) k = mapGet m k := by
  unfold mapSet mapGet
  split
  · rw [find_repl_other k' k v h m]
    rcases hf : m.find? (fun p => decide (p.1 = k)) with _ | p
    · rw [hf]
      rfl
    · rw [hf]
      have hpk : p.1 = k := by simpa using List.find?_some hf
      have hp : ¬(p.1 = k') := fun he => h (he ▸ hpk)
      simp [hp]
  · rcases hf : m.find? (fun p => decide (p.1 = k)) with _ | p
    · rw [find_append_none _ m _ hf,
        List.find?_cons_of_neg _ (by simp [h]), hf]
      rfl
    · rw [find_append_some _ m _ p hf, hf]

theorem mapSet_keys {α : Type} (m : List (Str × α)) (k : Str) (v : α) :
    (mapSet m k v).map Prod.fst
      = if mapHas m k then m.map Prod.fst else m.map Prod.fst ++ [k] := by
  by_cases h : mapHas m k = true
  · rw [if_pos h]
    unfold mapSet
    rw [if_pos h, List.map_map]
    apply List.map_congr_left
    intro p _
    by_cases hp : p.1 = k
    · simp [Function.comp, hp]
    · simp [Function.comp, hp]
  · rw [if_neg h]
    unfold mapSet
    rw [if_neg h]
    simp

theorem mem_keys_mapSet {α : Type} (m : List (Str × α)) (k : Str) (v : α) :
    k ∈ (mapSet m k v).map Prod.fst := by
  rw [mapSet_keys]
  split
  · exact (mapHas_iff m k).mp (by assumption)
  · exact List.mem_append_right _ (List.mem_singleton.mpr rfl)

theorem keys_mapSet_mono {α : Type} (m : List (Str × α)) (k' : Str) (v : α)
    (k : Str) (h : k ∈ m.map Prod.fst) : k ∈ (mapSet m k' v).map Prod.fst := by
  rw [mapSet_keys]
  split
  · exact h
  · exact List.mem_append_left _ h

-- v2 category registration lemmas.

theorem v2CatStep_none (r : RowObj) (st : List (Str × RowObj) × Option Cell)
    (level : Nat) (h : v2CatEff r level = none) :
    v2CatLevelStep r st level = st := by
  unfold v2CatLevelStep
  rw [h]

theorem v2CatStep_snd (r : RowObj) (st : List (Str × RowObj) × Option Cell)
    (level : Nat) (eff : Cell) (h : v2CatEff r level = some eff) :
    (v2CatLevelStep r st level).2 = some eff := by
  unfold v2CatLevelStep
  rw [h]

theorem v2CatStep_fresh (r : RowObj) (st : List (Str × RowObj) × Option Cell)
    (level : Nat) (eff : Cell) (h : v2CatEff r level = some eff)
    (hfresh : mapGet st.1 (strRender eff) = none) :
    (v2CatLevelStep r st level).1
      = mapSet st.1 (strRender eff)
          [("erp_category_uid".toList, eff),
           ("name".toList, rowGet r (catNameCol level)),
           ("parent_category_uid".toList, optCell st.2)] := by
  unfold v2CatLevelStep
  rw [h]
  dsimp only
  rw [hfresh]
  dsimp only
  rw [if_pos rfl]

theorem v2CatStep_get_other (r : RowObj)
    (st : List (Str × RowObj) × Option Cell) (level : Nat) (k : Str)
    (h : ∀ eff, v2CatEff r level = some eff → strRender eff ≠ k) :
    mapGet ((v2CatLevelStep r st level).1) k = mapGet st.1 k := by
  unfold v2CatLevelStep
  rcases he : v2CatEff r level with _ | eff
  · rfl
  · dsimp only
    split
    · exact mapGet_set_other st.1 (strRender eff) k _ (h eff he)
    · rfl

theorem v2CatStep_keys_mono (r : RowObj)
    (st : List (Str × RowObj) × Option Cell) (level : Nat) (k : Str)
    (h : k ∈ st.1.map Prod.fst) :
    k ∈ ((v2CatLevelStep r st level).1).map Prod.fst := by
  unfold v2CatLevelStep
  rcases he : v2CatEff r level with _ | eff
  · exact h
  · dsimp only
    split
    · exact keys_mapSet_mono st.1 (strRender eff) _ k h
    · exact h

theorem v2CatStep_registers (r : RowObj)
    (st : List (Str × RowObj) × Option Cell) (level : Nat) (eff : Cell)
    (he : v2CatEff r level = some eff) :
    strRender eff ∈ ((v2CatLevelStep r st level).1).map Prod.fst := by
  unfold v2CatLevelStep
  rw [he]
  dsimp only
  rcases hg : mapGet st.1 (strRender eff) with _ | e
  · dsimp only
    rw [if_pos rfl]
    exact mem_keys_mapSet st.1 (strRender eff) _
  · dsimp only
    split
    · exact mem_keys_mapSet st.1 (strRender eff) _
    · exact mapGet_some_mem_keys st.1 (strRender eff) e hg

theorem v2CatStep_preserves_named (r : RowObj)
    (st : List (Str × RowObj) × Option Cell) (level : Nat) (k : Str)
    (e : RowObj) (hg : mapGet st.1 k = some e)
    (hn : rowGet e "name".toList ≠ Cell.cnull) :
    mapGet ((v2CatLevelStep r st level).1) k = some e := by
  unfold v2CatLevelStep
  rcases he : v2CatEff r level with _ | eff
  · exact hg
  · dsimp only
    by_cases hk : strRender eff = k
    · rw [hk, hg]
      dsimp only
      have hne : ¬ ((decide (rowGet e "name".toList = Cell.cnull)
          && !decide (rowGet r (catNameCol level) = Cell.cnull)) = true) := by
        simp only [Bool.and_eq_true, decide_eq_true_eq]
        intro hc
        exact hn hc.1
      rw [if_neg hne]
      exact hg
    · rcases hg2 : mapGet st.1 (strRender eff) with _ | e2
      · dsimp only
        rw [if_pos rfl]
        rw [mapGet_set_other st.1 (strRender eff) k _ hk]
        exact hg
      · dsimp only
        split
        · rw [mapGet_set_other st.1 (strRender eff) k _ hk]
          exact hg
        · exact hg

theorem v2CatFold_keys_mono (r : RowObj) :
    ∀ (levels : List Nat) (st : List (Str × RowObj) × Option Cell) (k : Str),
      k ∈ st.1.map Prod.fst →
      k ∈ ((levels.foldl (v2CatLevelStep r) st).1).map Prod.fst := by
  intro levels
  induction levels with
  | nil => intro st k h; exact h
  | cons l rest ih =>
    intro st k h
    exact ih _ k (v2CatStep_keys_mono r st l k h)

theorem v2CatFold_registers (r : RowObj) :
    ∀ (levels : List Nat) (st : List (Str × RowObj) × Option Cell)
      (level : Nat) (eff : Cell), level ∈ levels →
      v2CatEff r level = some eff →
      strRender eff ∈ ((levels.foldl (v2CatLevelStep r) st).1).map Prod.fst := by
  intro levels
  induction levels with
  | nil => intro st level eff h; simp at h
  | cons l rest ih =>
    intro st level eff hmem he
    rcases List.mem_cons.mp hmem with rfl | h2
    · exact v2CatFold_keys_mono r rest _ _ (v2CatStep_registers r st level eff he)
    · exact ih _ level eff h2 he

theorem v2CatFold_preserves_named (r : RowObj) :
    ∀ (levels : List Nat) (st : List (Str × RowObj) × Option Cell) (k : Str)
      (e : RowObj), mapGet st.1 k = some e →
      rowGet e "name".toList ≠ Cell.cnull →
      mapGet ((levels.foldl (v2CatLevelStep r) st).1) k = some e := by
  intro levels
  induction levels with
  | nil => intro st k e hg _; exact hg
  | cons l rest ih =>
    intro st k e hg hn
    exact ih _ k e (v2CatStep_preserves_named r st l k e hg hn) hn

/-- Chain threading across a gap: with levels 2 and 4 populated and 1, 3, 5, 6
blank, a fresh level-4 key registers with the level-2 id as parent. -/
theorem registerV2Cats_chain (m0 : List (Str × RowObj)) (r : RowObj)
    (e2 e4 : Cell)
    (h1 : v2CatEff r 1 = none) (h2 : v2CatEff r 2 = some e2)
    (h3 : v2CatEff r 3 = none) (h4 : v2CatEff r 4 = some e4)
    (h5 : v2CatEff r 5 = none) (h6 : v2CatEff r 6 = none)
    (hfresh : mapGet m0 (strRender e4) = none)
    (hne : strRender e2 ≠ strRender e4) :
    mapGet (registerV2Cats m0 r) (strRender e4)
      = some [("erp_category_uid".toList, e4),
              ("name".toList, rowGet r (catNameCol 4)),
              ("parent_category_uid".toList, e2)] := by
  unfold registerV2Cats
  simp only [List.foldl_cons, List.foldl_nil]
  rw [v2CatStep_none r (m0, none) 1 h1]
  rw [v2CatStep_none r _ 3 h3]
  rw [v2CatStep_none r _ 6 h6]
  rw [v2CatStep_none r _ 5 h5]
  have hsnd : (v2CatLevelStep r (m0, none) 2).2 = some e2 :=
    v2CatStep_snd r (m0, none) 2 e2 h2
  have hget : mapGet (v2CatLevelStep r (m0, none) 2).1 (strRender e4)
      = mapGet m0 (strRender e4) := by
    apply v2CatStep_get_other
    intro eff heff
    rw [h2] at heff
    injection heff with he
    rw [he] at hne
    exact hne
  have hfresh2 : mapGet (v2CatLevelStep r (m0, none) 2).1 (strRender e4)
      = none := hget.trans hfresh
  rw [v2CatStep_fresh r (v2CatLevelStep r (m0, none) 2) 4 e4 h4 hfresh2]
  rw [hsnd]
  exact mapGet_set_self _ _ _

theorem v2Step_erpcats (acc : V2Acc) (r : RowObj) :
    (v2Step acc r).erpCategoriesMap = registerV2Cats acc.erpCategoriesMap r := by
  unfold v2Step
  dsimp only
  rcases v2EffBrand r with _ | eb <;> rcases v2EffManuf r with _ | em <;>
    simp [apply_ite V2Acc.erpCategoriesMap]

theorem v2_fold_erpcats :
    ∀ (rows : List RowObj) (acc : V2Acc),
      (rows.foldl v2Step acc).erpCategoriesMap
        = rows.foldl (fun m r => registerV2Cats m r) acc.erpCategoriesMap := by
  intro rows
  induction rows with
  | nil => intro acc; rfl
  | cons r rest ih =>
    intro acc
    simp only [List.foldl_cons]
    rw [ih, v2Step_erpcats]

theorem v2CatStep_backfill (r : RowObj) (st : List (Str × RowObj) × Option Cell)
    (level : Nat) (eff : Cell) (e : RowObj)
    (he : v2CatEff r level = some eff)
    (hg : mapGet st.1 (strRender eff) = some e)
    (hnull : rowGet e "name".toList = Cell.cnull)
    (hcur : rowGet r (catNameCol level) ≠ Cell.cnull) :
    mapGet ((v2CatLevelStep r st level).1) (strRender eff)
      = some [("erp_category_uid".toList, eff),
              ("name".toList, rowGet r (catNameCol level)),
              ("parent_category_uid".toList, optCell st.2)] := by
  unfold v2CatLevelStep
  rw [he]
  dsimp only
  rw [hg]
  dsimp only
  have hcond : (decide (rowGet e "name".toList = Cell.cnull)
      && !decide (rowGet r (catNameCol level) = Cell.cnull)) = true := by
    simp only [Bool.and_eq_true, decide_eq_true_eq, Bool.not_eq_true',
      decide_eq_false_iff_not]
    exact ⟨hnull, hcur⟩
  rw [if_pos hcond]
  exact mapGet_set_self _ _ _

/-- C2 (amended): on a v2 row, every populated category level registers its
resolved (UID-first-else-name) id in the category map; with levels 2 and 4
populated across a blank level 3, a fresh level-4 entry's parent is the
level-2 id; an existing entry whose name is non-null is never modified;
however, when an existing entry's name is null and the current row supplies
a name, the entire entry — parent linkage included — is rebuilt from the
current row's chain state; the processor's category map is exactly the fold
of this per-row registration over the valid rows. -/
theorem c2_v2_category_chain
    (m0 : List (Str × RowObj)) (r : RowObj) (e2 e4 : Cell)
    (h1 : v2CatEff r 1 = none) (h2 : v2CatEff r 2 = some e2)
    (h3 : v2CatEff r 3 = none) (h4 : v2CatEff r 4 = some e4)
    (h5 : v2CatEff r 5 = none) (h6 : v2CatEff r 6 = none)
    (hfresh : mapGet m0 (strRender e4) = none)
    (hne : strRender e2 ≠ strRender e4) :
    mapGet (registerV2Cats m0 r) (strRender e4)
      = some [("erp_category_uid".toList, e4),
              ("name".toList, rowGet r (catNameCol 4)),
              ("parent_category_uid".toList, e2)]
    ∧ (∀ (m : List (Str × RowObj)) (r2 : RowObj) (level : Nat) (eff : Cell),
        level ∈ [1, 2, 3, 4, 5, 6] → v2CatEff r2 level = some eff →
        strRender eff ∈ (registerV2Cats m r2).map Prod.fst)
    ∧ (∀ (m : List (Str × RowObj)) (r2 : RowObj) (k : Str) (e : RowObj),
        mapGet m k = some e → rowGet e "name".toList ≠ Cell.cnull →
        mapGet (registerV2Cats m r2) k = some e)
    ∧ (∀ (st : List (Str × RowObj) × Option Cell) (r2 : RowObj)
         (level : Nat) (eff : Cell) (e : RowObj),
        v2CatEff r2 level = some eff →
        mapGet st.1 (strRender eff) = some e →
        rowGet e "name".toList = Cell.cnull →
        rowGet r2 (catNameCol level) ≠ Cell.cnull →
        mapGet ((v2CatLevelStep r2 st level).1) (strRender eff)
          = some [("erp_category_uid".toList, eff),
                  ("name".toList, rowGet r2 (catNameCol level)),
                  ("parent_category_uid".toList, optCell st.2)])
    ∧ (∀ rows : List RowObj,
        (processItemMasterV2Rows rows).erpCategoriesMap
          = (rows.filter v2RowValid).foldl
              (fun m r2 => registerV2Cats m r2) []) := by
  refine ⟨registerV2Cats_chain m0 r e2 e4 h1 h2 h3 h4 h5 h6 hfresh hne,
    ?_, ?_, ?_, ?_⟩
  · intro m r2 level eff hmem heff
    unfold registerV2Cats
    exact v2CatFold_registers r2 _ _ level eff hmem heff
  · intro m r2 k e hg hn
    unfold registerV2Cats
    exact v2CatFold_preserves_named r2 _ _ k e hg hn
  · intro st r2 level eff e heff hg hnull hcur
    exact v2CatStep_backfill r2 st level eff e heff hg hnull hcur
  · intro rows
    unfold processItemMasterV2Rows
    exact v2_fold_erpcats (rows.filter v2RowValid) ⟨[], [], [], [], [], []⟩

def rowChain24 : RowObj :=
  [("UID*".toList, Cell.cstr "I9".toList),
   ("Category level 2 UID".toList, Cell.cstr "P2".toList),
   ("Category level 4 UID".toList, Cell.cstr "P4".toList)]

theorem c2_v2_category_chain_witness :
    mapGet (registerV2Cats [] rowChain24) (strRender (Cell.cstr "P4".toList))
      = some [("erp_category_uid".toList, Cell.cstr "P4".toList),
              ("name".toList, rowGet rowChain24 (catNameCol 4)),
              ("parent_category_uid".toList, Cell.cstr "P2".toList)] :=
  (c2_v2_category_chain [] rowChain24 (Cell.cstr "P2".toList)
    (Cell.cstr "P4".toList)
    (by decide) (by decide) (by decide) (by decide) (by decide) (by decide)
    rfl (by decide)).1

def rowCatA : RowObj :=
  [("UID*".toList, Cell.cstr "I1".toList),
   ("Category level 1 UID".toList, Cell.cstr "A".toList),
   ("Category level 2 UID".toList, Cell.cstr "X".toList),
   ("Category level 2".toList, Cell.cnull)]

def rowCatB : RowObj :=
  [("UID*".toList, Cell.cstr "I2".toList),
   ("Category level 1 UID".toList, Cell.cstr "B".toList),
   ("Category level 2 UID".toList, Cell.cstr "X".toList),
   ("Category level 2".toList, Cell.cstr "XName".toList)]

/-- C2 counterexample: after row A alone, category entry "X" carries parent
"A" and a null name; after the later row B backfills the name, the same
entry's parent has been overwritten to "B" — refuting the claim that the
parent linkage is never overwritten. -/
theorem c2_v2_category_counterexample :
    mapGet (processItemMasterV2Rows [rowCatA]).erpCategoriesMap "X".toList
      = some [("erp_category_uid".toList, Cell.cstr "X".toList),
              ("name".toList, Cell.cnull),
              ("parent_category_uid".toList, Cell.cstr "A".toList)]
    ∧ mapGet (processItemMasterV2Rows
          [rowCatA, rowCatB]).erpCategoriesMap "X".toList
      = some [("erp_category_uid".toList, Cell.cstr "X".toList),
              ("name".toList, Cell.cstr "XName".toList),
              ("parent_category_uid".toList, Cell.cstr "B".toList)] := by
  decide

-- v2 brands table lemmas.

/-- The effective brand key of a row, as the map key string. -/
def v2BrandKey (r : RowObj) : Option Str := (v2EffBrand r).map strRender

/-- The brands-map portion of one v2 row step. -/
def v2BrandsStep (m : List (Str × RowObj)) (r : RowObj) :
    List (Str × RowObj) :=
  match v2EffBrand r with
  | none => m
  | some eff =>
    if mapHas m (strRender eff) then m
    else m ++ [(strRender eff, mkV2BrandRecord r)]

theorem mapGet_append {α : Type} (m l2 : List (Str × α)) (k : Str) :
    mapGet (m ++ l2) k
      = match mapGet m k with
        | some v => some v
        | none => mapGet l2 k := by
  unfold mapGet
  rcases hf : m.find? (fun p => decide (p.1 = k)) with _ | p
  · rw [find_append_none _ m l2 hf, hf]
    rfl
  · rw [find_append_some _ m l2 p hf, hf]
    rfl

theorem mapGet_none_find_none {α : Type} (m : List (Str × α)) (k : Str)
    (h : mapGet m k = none) :
    m.find? (fun p => decide (p.1 = k)) = none := by
  unfold mapGet at h
  rcases hf : m.find? (fun p => decide (p.1 = k)) with _ | p
  · exact hf
  · rw [hf] at h
    simp at h

theorem mapGet_none_has_false {α : Type} (k : Str) (m : List (Str × α))
    (h : mapGet m k = none) : mapHas m k = false := by
  have hf := mapGet_none_find_none m k h
  rcases hh : mapHas m k with _ | _
  · rfl
  · exfalso
    unfold mapHas at hh
    rw [List.any_eq_true] at hh
    rcases hh with ⟨x, hx, hpx⟩
    have hs : (m.find? (fun p => decide (p.1 = k))).isSome := by
      rw [List.find?_isSome]
      exact ⟨x, hx, hpx⟩
    rw [hf] at hs
    simp at hs

theorem v2BrandsStep_get (m : List (Str × RowObj)) (r : RowObj) (k : Str) :
    mapGet (v2BrandsStep m r) k
      = match mapGet m k with
        | some v => some v
        | none =>
          if v2BrandKey r = some k then some (mkV2BrandRecord r)
          else none := by
  unfold v2BrandsStep v2BrandKey
  rcases hb : v2EffBrand r with _ | eff
  · dsimp only
    rcases hg : mapGet m k with _ | v
    · dsimp only
      rw [if_neg (fun hc => Option.noConfusion hc)]
    · rfl
  · dsimp only
    by_cases hh : mapHas m (strRender eff) = true
    · rw [if_pos hh]
      rcases hg : mapGet m k with _ | v
      · dsimp only
        rw [if_neg ?hne]
        case hne =>
          intro hc
          injection hc with he
          rw [he] at hh
          rw [mapGet_none_has_false k m hg] at hh
          exact Bool.noConfusion hh
      · rfl
    · rw [if_neg hh]
      rw [mapGet_append]
      rcases hg : mapGet m k with _ | v
      · dsimp only
        simp only [Option.map_some']
        by_cases hk : strRender eff = k
        · rw [if_pos (by rw [hk]), hk]
          unfold mapGet
          rw [List.find?_cons_of_pos _ (by simp)]
          rfl
        · rw [if_neg (fun hc => hk (Option.some.inj hc))]
          unfold mapGet
          rw [List.find?_cons_of_neg _ (by simp [hk])]
          rfl
      · rfl

theorem v2BrandsFold_get :
    ∀ (rows : List RowObj) (m : List (Str × RowObj)) (k : Str),
      mapGet (rows.foldl v2BrandsStep m) k
        = match mapGet m k with
          | some v => some v
          | none =>
            (rows.find? (fun r => decide (v2BrandKey r = some k))).map
              mkV2BrandRecord := by
  intro rows
  induction rows with
  | nil =>
    intro m k
    rw [List.foldl_nil]
    rcases hg : mapGet m k with _ | v <;> rfl
  | cons r rest ih =>
    intro m k
    rw [List.foldl_cons, ih (v2BrandsStep m r) k, v2BrandsStep_get]
    rcases hg : mapGet m k with _ | v
    · dsimp only
      by_cases hbk : v2BrandKey r = some k
      · rw [if_pos hbk, List.find?_cons_of_pos _ (by simp [hbk])]
        rfl
      · rw [if_neg hbk, List.find?_cons_of_neg _ (by simp [hbk])]
    · rfl

theorem v2BrandsStep_key_none (m : List (Str × RowObj)) (r : RowObj)
    (h : v2BrandKey r = none) : v2BrandsStep m r = m := by
  unfold v2BrandsStep
  unfold v2BrandKey at h
  rcases hb : v2EffBrand r with _ | eff
  · rfl
  · rw [hb] at h
    simp at h

theorem v2BrandsStep_keys (m : List (Str × RowObj)) (r : RowObj) (key : Str)
    (h : v2BrandKey r = some key) :
    (v2BrandsStep m r).map Prod.fst
      = if key ∈ m.map Prod.fst then m.map Prod.fst
        else m.map Prod.fst ++ [key] := by
  unfold v2BrandsStep
  unfold v2BrandKey at h
  rcases hb : v2EffBrand r with _ | eff
  · rw [hb] at h
    simp at h
  · rw [hb] at h
    simp only [Option.map_some'] at h
    injection h with hkey
    dsimp only
    rw [hkey]
    by_cases hh : mapHas m key = true
    · rw [if_pos hh, if_pos ((mapHas_iff m key).mp hh)]
    · rw [if_neg hh, if_neg (fun hc => hh ((mapHas_iff m key).mpr hc))]
      rw [List.map_append]
      rfl

theorem v2BrandsFold_keys :
    ∀ (rows : List RowObj) (m : List (Str × RowObj)),
      (rows.foldl v2BrandsStep m).map Prod.fst
        = m.map Prod.fst
            ++ dedupFirstAux (m.map Prod.fst) (rows.filterMap v2BrandKey) := by
  intro rows
  induction rows with
  | nil =>
    intro m
    rw [List.foldl_nil, List.filterMap_nil]
    rw [show dedupFirstAux (m.map Prod.fst) [] = [] from rfl]
    rw [List.append_nil]
  | cons r rest ih =>
    intro m
    rw [List.foldl_cons, List.filterMap_cons, ih]
    rcases hb : v2BrandKey r with _ | key
    · rw [v2BrandsStep_key_none m r hb]
    · have hkeys := v2BrandsStep_keys m r key hb
      dsimp only
      rw [dedupFirstAux]
      by_cases hk : key ∈ m.map Prod.fst
      · rw [if_pos hk] at hkeys
        rw [hkeys, if_pos hk]
      · rw [if_neg hk] at hkeys
        rw [hkeys, if_neg hk]
        rw [List.append_assoc, List.singleton_append]

theorem v2Step_brands (acc : V2Acc) (r : RowObj) :
    (v2Step acc r).brandsMap = v2BrandsStep acc.brandsMap r := by
  unfold v2Step v2BrandsStep
  dsimp only
  rcases v2EffBrand r with _ | eb <;> rcases v2EffManuf r with _ | em <;>
    simp [apply_ite V2Acc.brandsMap]

theorem v2Step_masteritems2 (acc : V2Acc) (r : RowObj) :
    (v2Step acc r).masteritems = acc.masteritems ++ [mkV2ItemRecord r] := by
  unfold v2Step
  dsimp only
  rcases v2EffBrand r with _ | eb <;> rcases v2EffManuf r with _ | em <;>
    simp [apply_ite V2Acc.masteritems]

theorem v2_fold_brands :
    ∀ (rows : List RowObj) (acc : V2Acc),
      (rows.foldl v2Step acc).brandsMap
        = rows.foldl v2BrandsStep acc.brandsMap := by
  intro rows
  induction rows with
  | nil => intro acc; rfl
  | cons r rest ih =>
    intro acc
    simp only [List.foldl_cons]
    rw [ih, v2Step_brands]

theorem v2_fold_items :
    ∀ (rows : List RowObj) (acc : V2Acc),
      (rows.foldl v2Step acc).masteritems
        = acc.masteritems ++ rows.map mkV2ItemRecord := by
  intro rows
  induction rows with
  | nil => intro acc; rw [List.foldl_nil, List.map_nil, List.append_nil]
  | cons r rest ih =>
    intro acc
    simp only [List.foldl_cons, List.map_cons]
    rw [ih, v2Step_masteritems2, List.append_assoc, List.singleton_append]

/-- C6: on a v2 row whose Brand UID column is blank and whose Brand name
column is non-blank, the effective brand id falls back to the name value,
the emitted item record's brand_uid is that value, the item table holds one
record per valid row, and the brands table is keyed by the first-occurrence
dedup of effective brand ids (Nodup keys, first qualifying row defining the
entry), containing an entry for the row's name value. -/
theorem c6_v2_brand_fallback (r : RowObj)
    (hblank : nonblank (rowGet r "Brand UID".toList) = false)
    (hname : nonblank (rowGet r "Brand".toList) = true) :
    v2EffBrand r = some (rowGet r "Brand".toList)
    ∧ rowGet (mkV2ItemRecord r) "brand_uid".toList = rowGet r "Brand".toList
    ∧ (∀ rows : List RowObj,
        (processItemMasterV2Rows rows).masteritems
          = (rows.filter v2RowValid).map mkV2ItemRecord)
    ∧ (∀ rows : List RowObj,
        (processItemMasterV2Rows rows).brandsMap.map Prod.fst
          = dedupFirst ((rows.filter v2RowValid).filterMap v2BrandKey)
        ∧ ((processItemMasterV2Rows rows).brandsMap.map Prod.fst).Nodup
        ∧ (∀ k : Str,
            mapGet (processItemMasterV2Rows rows).brandsMap k
              = (((rows.filter v2RowValid).find?
                  (fun r2 => decide (v2BrandKey r2 = some k))).map
                  mkV2BrandRecord)))
    ∧ (∀ rows : List RowObj, r ∈ rows.filter v2RowValid →
        strRender (rowGet r "Brand".toList)
          ∈ (processItemMasterV2Rows rows).brandsMap.map Prod.fst) := by
  have heff : v2EffBrand r = some (rowGet r "Brand".toList) := by
    unfold v2EffBrand uidFirstElseName
    rw [if_neg (by rw [hblank]; exact fun hc => Bool.noConfusion hc),
      if_pos hname]
  have hitems : ∀ rows : List RowObj,
      (processItemMasterV2Rows rows).masteritems
        = (rows.filter v2RowValid).map mkV2ItemRecord := by
    intro rows
    unfold processItemMasterV2Rows
    rw [v2_fold_items]
    exact List.nil_append _
  have hbrands : ∀ rows : List RowObj,
      (processItemMasterV2Rows rows).brandsMap.map Prod.fst
        = dedupFirst ((rows.filter v2RowValid).filterMap v2BrandKey) := by
    intro rows
    unfold processItemMasterV2Rows
    rw [v2_fold_brands]
    exact v2BrandsFold_keys (rows.filter v2RowValid) []
  have hmem : ∀ rows : List RowObj, r ∈ rows.filter v2RowValid →
      strRender (rowGet r "Brand".toList)
        ∈ (processItemMasterV2Rows rows).brandsMap.map Prod.fst := by
    intro rows hr
    rw [hbrands rows]
    have hkey : v2BrandKey r = some (strRender (rowGet r "Brand".toList)) := by
      unfold v2BrandKey
      rw [heff]
      rfl
    have hin : strRender (rowGet r "Brand".toList)
        ∈ (rows.filter v2RowValid).filterMap v2BrandKey :=
      List.mem_filterMap.mpr ⟨r, hr, hkey⟩
    exact (dedupFirstAux_mem _ [] _).mpr ⟨hin, by simp⟩
  refine ⟨heff, ?_, hitems, ?_, hmem⟩
  · have hrec : rowGet (mkV2ItemRecord r) "brand_uid".toList
        = optCell (v2EffBrand r) := rfl
    rw [hrec, heff]
    rfl
  · intro rows
    refine ⟨hbrands rows, ?_, ?_⟩
    · rw [hbrands rows]
      exact (dedupFirstAux_nodup _ []).1
    · intro k
      unfold processItemMasterV2Rows
      rw [v2_fold_brands]
      exact v2BrandsFold_get (rows.filter v2RowValid) [] k

def rowBrandOnly : RowObj :=
  [("UID*".toList, Cell.cstr "I3".toList),
   ("Brand".toList, Cell.cstr "Acme".toList)]

theorem c6_v2_brand_fallback_witness :
    nonblank (rowGet rowBrandOnly "Brand UID".toList) = false
    ∧ nonblank (rowGet rowBrandOnly "Brand".toList) = true
    ∧ v2EffBrand rowBrandOnly = some (Cell.cstr "Acme".toList) :=
  ⟨by decide, by decide,
    (c6_v2_brand_fallback rowBrandOnly (by decide) (by decide)).1⟩

-- The main dispatcher (`generateCsvsFromExcel`) and the per-type file
-- processors it calls. The clock read (`getTodayDateString`) is passed in
-- as the `dateStr` argument; reading the workbook from the uploaded file
-- is modelled by taking the `Workbook` grid directly.

/-- A generated CSV file: its name and its content. -/
structure CsvFile where
  name : Str
  content : Str
deriving DecidableEq, Repr

/-- The optional per-table toggles of `CsvGenerationOptions`; an absent
field means the `?? true` default applies. -/
structure CsvGenerationOptions where
  suppliers : Option Bool
  barcodes : Option Bool
  brands : Option Bool
  dimensions : Option Bool
  erpcategories : Option Bool
  manufacturers : Option Bool
deriving DecidableEq, Repr

/-- The `{}` default options value of the dispatcher. -/
def defaultOptions : CsvGenerationOptions := ⟨none, none, none, none, none, none⟩

/-- `options.x ?? true`. -/
def optFlag (o : Option Bool) : Bool := o.getD true

/-- `workbook.Sheets[sheetName]`. -/
def sheetRaw (wb : Workbook) (sheetName : Str) : Option (List (List Cell)) :=
  (wb.find? (fun s => s.1 = sheetName)).map (fun s => s.2)

/-- One header cell's column label: `String(h || '').trim()`. -/
def headerName (c : Cell) : Str :=
  jsTrim (strRender (if truthy c then c else Cell.cstr []))

/-- The header-row scan shared by the processors: the first row holding a
string cell that contains SOME keyword of the type's definition (a looser
test than detection's every-keyword match). -/
def headerSearch (t : FileType) (rawData : List (List Cell)) : Option Nat :=
  rawData.findIdx? (fun row =>
    row.any (fun cell =>
      cell.isStr
        && (FILE_TYPE_DEFINITIONS t).any (fun kw => hasSeg kw (strRender cell))))

/-- The store record built from one Stores row. -/
def mkStoreRecord (r : RowObj) : RowObj :=
  [("store_uid".toList, rowGet r "Store UID*".toList),
   ("name".toList, rowGet r "Store name*".toList),
   ("region".toList, rowGet r "Region".toList),
   ("group_name".toList, rowGet r "Group name".toList),
   ("floor_space".toList,
     Cell.cnum (mkRat (parseIntOr0 (rowGet r "Square".toList)) 1)),
   ("in_shelf".toList,
     Cell.cnum (mkRat (parseIntOr0 (rowGet r "In Shelf?".toList)) 1)),
   ("licence_start_date".toList, Cell.cstr "2023-01-01".toList),
   ("is_deleted".toList,
     Cell.cnum (mkRat (parseIntOr0 (rowGet r "To delete".toList)) 1))]

/-- The Stores row loop: build records, keep those with a truthy store id. -/
def processStoresRows (rows : List RowObj) : List RowObj :=
  (rows.map mkStoreRecord).filter
    (fun rec => truthy (rowGet rec "store_uid".toList))

/-- `processStoresFile`. -/
def processStoresFile (wb : Workbook) (sheetName : Str) (dateStr : Str) :
    Except Str (List CsvFile) :=
  match sheetRaw wb sheetName with
  | none =>
    .error ("Sheet \"".toList ++ sheetName ++ "\" not found.".toList)
  | some rawData =>
    match headerSearch FileType.STORE rawData with
    | none =>
      .error "Could not find a valid header row in the Stores sheet.".toList
    | some headerRowIndex =>
      let headers := (rawData.getD headerRowIndex []).map headerName
      let dataRows := rawData.drop (headerRowIndex + 1)
      let storesData := processStoresRows (dataRows.map (buildRowObject headers))
      if storesData.isEmpty then .ok []
      else
        .ok [⟨"stores_".toList ++ dateStr ++ ".csv".toList,
          arrayToCsv storesData
            ["store_uid".toList, "name".toList, "region".toList,
             "group_name".toList, "floor_space".toList, "in_shelf".toList,
             "licence_start_date".toList, "is_deleted".toList]⟩]

/-- `processStoreItemsFile`. -/
def processStoreItemsFile (wb : Workbook) (sheetName : Str) (dateStr : Str)
    (options : CsvGenerationOptions) : Except Str (List CsvFile) :=
  match sheetRaw wb sheetName with
  | none =>
    .error ("Sheet \"".toList ++ sheetName ++ "\" not found.".toList)
  | some rawData =>
    match headerSearch FileType.STORE_ITEMS rawData with
    | none =>
      .error "Could not find a valid header row in the Items sheet.".toList
    | some headerRowIndex =>
      let headers := (rawData.getD headerRowIndex []).map headerName
      let dataRows := rawData.drop (headerRowIndex + 1)
      let res := processStoreItemsRows (dataRows.map (buildRowObject headers))
      if res.1.isEmpty then .ok []
      else
        let base := [(⟨"items_".toList ++ dateStr ++ ".csv".toList,
          arrayToCsv res.1
            ["item_uid".toList, "store_uid".toList,
             "is_active_planogram".toList, "purchase_price".toList,
             "retail_price".toList, "external_supplier_uid".toList]⟩ : CsvFile)]
        .ok (if optFlag options.suppliers && !res.2.isEmpty then
          base ++ [⟨"suppliers_".toList ++ dateStr ++ ".csv".toList,
            arrayToCsv (res.2.map Prod.snd)
              ["supplier_uid".toList, "name".toList, "is_deleted".toList]⟩]
        else base)

/-- `processFactsFile`. -/
def processFactsFile (wb : Workbook) (sheetName : Str) (dateStr : Str) :
    Except Str (List CsvFile) :=
  match sheetRaw wb sheetName with
  | none =>
    .error ("Sheet \"".toList ++ sheetName ++ "\" not found.".toList)
  | some rawData =>
    match headerSearch FileType.FACTS rawData with
    | none =>
      .error "Could not find a valid header row in the Facts sheet.".toList
    | some headerRowIndex =>
      let headers := (rawData.getD headerRowIndex []).map headerName
      let dataRows := rawData.drop (headerRowIndex + 1)
      let factsData := processFactsRows (dataRows.map (buildRowObject headers))
      if factsData.isEmpty then .ok []
      else
        .ok [⟨"facts_".toList ++ dateStr ++ ".csv".toList,
          arrayToCsv factsData
            ["item_uid".toList, "store_uid".toList, "date".toList,
             "stock".toList, "sold_qty".toList, "revenue".toList,
             "cogs".toList]⟩]

/-- `processItemMasterFile` (v1): after the header row, data starts at the
first row holding a non-null cell with a non-empty trimmed string form. -/
def processItemMasterFile (wb : Workbook) (sheetName : Str) (dateStr : Str)
    (options : CsvGenerationOptions) : Except Str (List CsvFile) :=
  match sheetRaw wb sheetName with
  | none =>
    .error ("Sheet \"".toList ++ sheetName ++ "\" not found.".toList)
  | some rawData =>
    match headerSearch FileType.ITEM_MASTER rawData with
    | none =>
      .error "Could not find header row in Masteritems file.".toList
    | some headerRowIndex =>
      let headers := (rawData.getD headerRowIndex []).map headerName
      let tailRows := rawData.drop (headerRowIndex + 1)
      let dataRows :=
        match tailRows.findIdx? (fun row =>
            row.any (fun cell =>
              !(cell = Cell.cnull) && !(jsTrim (strRender cell)).isEmpty)) with
        | none => []
        | some j => tailRows.drop j
      let acc := processItemMasterRows (dataRows.map (buildRowObject headers))
      if acc.masteritems.isEmpty then .ok []
      else
        let csv0 := [(⟨"masteritems_".toList ++ dateStr ++ ".csv".toList,
          arrayToCsv acc.masteritems
            ["item_uid".toList, "name".toList, "manufacturer_uid".toList,
             "brand_uid".toList, "is_fractional".toList,
             "additional_1".toList, "additional_2".toList,
             "additional_3".toList, "additional_4".toList,
             "main_unit_uid".toList, "erp_category_uid".toList]⟩ : CsvFile)]
        let csv1 := if optFlag options.barcodes && !acc.barcodes.isEmpty then
          csv0 ++ [⟨"barcodes_".toList ++ dateStr ++ ".csv".toList,
            arrayToCsv acc.barcodes
              ["item_uid".toList, "barcode".toList, "is_main".toList]⟩]
          else csv0
        let csv2 := if optFlag options.brands && !acc.seenBrands.isEmpty then
          csv1 ++ [⟨"brands_".toList ++ dateStr ++ ".csv".toList,
            arrayToCsv (acc.seenBrands.map (fun b =>
                [("brand_uid".toList, Cell.cstr b), ("name".toList, Cell.cstr b),
                 ("is_deleted".toList, Cell.cnum (mkRat 0 1))]))
              ["brand_uid".toList, "name".toList, "is_deleted".toList]⟩]
          else csv1
        let csv3 := if optFlag options.dimensions && !acc.dimensions.isEmpty then
          csv2 ++ [⟨"dimensions_".toList ++ dateStr ++ ".csv".toList,
            arrayToCsv acc.dimensions
              ["item_uid".toList, "unit_name".toList, "width".toList,
               "height".toList, "depth".toList, "netweight".toList,
               "volume".toList, "dimension_uid".toList, "coef".toList,
               "is_deleted".toList]⟩]
          else csv2
        let csv4 :=
          if optFlag options.erpcategories && !acc.seenErpCategories.isEmpty then
            csv3 ++ [⟨"erpcategories_".toList ++ dateStr ++ ".csv".toList,
              arrayToCsv (acc.seenErpCategories.map Prod.snd)
                ["erp_category_uid".toList, "name".toList,
                 "parent_category_uid".toList]⟩]
          else csv3
        let csv5 :=
          if optFlag options.manufacturers && !acc.seenManufacturers.isEmpty then
            csv4 ++ [⟨"manufacturers_".toList ++ dateStr ++ ".csv".toList,
              arrayToCsv (acc.seenManufacturers.map (fun m =>
                  [("manufacturer_uid".toList, Cell.cstr m),
                   ("name".toList, Cell.cstr m),
                   ("is_deleted".toList, Cell.cnum (mkRat 0 1))]))
                ["manufacturer_uid".toList, "name".toList,
                 "is_deleted".toList]⟩]
          else csv4
        .ok csv5

/-- `processItemMasterV2File`. -/
def processItemMasterV2File (wb : Workbook) (sheetName : Str) (dateStr : Str)
    (options : CsvGenerationOptions) : Except Str (List CsvFile) :=
  match sheetRaw wb sheetName with
  | none =>
    .error ("Sheet \"".toList ++ sheetName ++ "\" not found.".toList)
  | some rawData =>
    match headerSearch FileType.ITEM_MASTER_V2 rawData with
    | none =>
      .error "Could not find header row in the new Masteritems file.".toList
    | some headerRowIndex =>
      let headers := (rawData.getD headerRowIndex []).map headerName
      let dataRows := rawData.drop (headerRowIndex + 1)
      let rows := dataRows.map (buildRowObject headers)
      if (rows.filter v2RowValid).isEmpty then .ok []
      else
        let acc := processItemMasterV2Rows rows
        let csv0 := [(⟨"masteritems_".toList ++ dateStr ++ ".csv".toList,
          arrayToCsv acc.masteritems
            ["item_uid".toList, "name".toList, "manufacturer_uid".toList,
             "brand_uid".toList, "is_fractional".toList,
             "additional_1".toList, "additional_2".toList,
             "additional_3".toList, "additional_4".toList,
             "additional_5".toList, "additional_6".toList,
             "additional_7".toList, "additional_8".toList,
             "additional_9".toList, "additional_10".toList,
             "additional_11".toList, "additional_12".toList,
             "additional_13".toList, "additional_14".toList,
             "additional_15".toList, "additional_16".toList,
             "additional_17".toList, "additional_18".toList,
             "additional_19".toList, "additional_20".toList,
             "main_unit_uid".toList, "erp_category_uid".toList,
             "is_deleted".toList]⟩ : CsvFile)]
        let csv1 := if optFlag options.barcodes && !acc.barcodes.isEmpty then
          csv0 ++ [⟨"barcodes_".toList ++ dateStr ++ ".csv".toList,
            arrayToCsv acc.barcodes
              ["item_uid".toList, "barcode".toList, "is_main".toList]⟩]
          else csv0
        let csv2 := if optFlag options.brands && !acc.brandsMap.isEmpty then
          csv1 ++ [⟨"brands_".toList ++ dateStr ++ ".csv".toList,
            arrayToCsv (acc.brandsMap.map Prod.snd)
              ["brand_uid".toList, "name".toList, "is_deleted".toList]⟩]
          else csv1
        let csv3 := if optFlag options.dimensions && !acc.dimensions.isEmpty then
          csv2 ++ [⟨"dimensions_".toList ++ dateStr ++ ".csv".toList,
            arrayToCsv acc.dimensions
              ["item_uid".toList, "unit_name".toList, "width".toList,
               "height".toList, "depth".toList, "coef".toList,
               "is_deleted".toList, "dimension_uid".toList]⟩]
          else csv2
        let csv4 :=
          if optFlag options.erpcategories && !acc.erpCategoriesMap.isEmpty then
            csv3 ++ [⟨"erpcategories_".toList ++ dateStr ++ ".csv".toList,
              arrayToCsv (acc.erpCategoriesMap.map Prod.snd)
                ["erp_category_uid".toList, "name".toList,
                 "parent_category_uid".toList]⟩]
          else csv3
        let csv5 :=
          if optFlag options.manufacturers && !acc.manufacturersMap.isEmpty then
            csv4 ++ [⟨"manufacturers_".toList ++ dateStr ++ ".csv".toList,
              arrayToCsv (acc.manufacturersMap.map Prod.snd)
                ["manufacturer_uid".toList, "name".toList,
                 "is_deleted".toList]⟩]
          else csv4
        .ok csv5

/-- The `'STOCK'`/`'PRICE'`-style literal of each detected type. -/
def typeName : FileType → Str
  | .ITEM_MASTER => "ITEM_MASTER".toList
  | .ITEM_MASTER_V2 => "ITEM_MASTER_V2".toList
  | .FACTS => "FACTS".toList
  | .STORE_ITEMS => "STORE_ITEMS".toList
  | .STORE => "STORE".toList
  | .STOCK => "STOCK".toList
  | .PRICE => "PRICE".toList
  | .UNKNOWN => "UNKNOWN".toList

/-- `Processing for "${detectedType}" files is not yet implemented.` -/
def notImplementedMsg (t : FileType) : Str :=
  "Processing for \"".toList ++ typeName t
    ++ "\" files is not yet implemented.".toList

/-- `Unknown file type. The file does not match any known templates.` -/
def unknownTypeMsg : Str :=
  "Unknown file type. The file does not match any known templates.".toList

/-- `generateCsvsFromExcel`: detect the type, reject `UNKNOWN` (or a missing
sheet), then dispatch on the detected type; the `STOCK` and `PRICE` branches
unconditionally throw the not-implemented error. -/
def generateCsvsFromExcel (wb : Workbook) (dateStr : Str)
    (options : CsvGenerationOptions) :
    Except Str (List CsvFile × FileType) :=
  match detectFileType wb with
  | (_, none) => .error unknownTypeMsg
  | (FileType.UNKNOWN, some _) => .error unknownTypeMsg
  | (FileType.STORE, some sheetName) =>
    (processStoresFile wb sheetName dateStr).map
      (fun cs => (cs, FileType.STORE))
  | (FileType.STORE_ITEMS, some sheetName) =>
    (processStoreItemsFile wb sheetName dateStr options).map
      (fun cs => (cs, FileType.STORE_ITEMS))
  | (FileType.ITEM_MASTER, some sheetName) =>
    (processItemMasterFile wb sheetName dateStr options).map
      (fun cs => (cs, FileType.ITEM_MASTER))
  | (FileType.ITEM_MASTER_V2, some sheetName) =>
    (processItemMasterV2File wb sheetName dateStr options).map
      (fun cs => (cs, FileType.ITEM_MASTER_V2))
  | (FileType.FACTS, some sheetName) =>
    (processFactsFile wb sheetName dateStr).map
      (fun cs => (cs, FileType.FACTS))
  | (FileType.STOCK, some _) => .error (notImplementedMsg FileType.STOCK)
  | (FileType.PRICE, some _) => .error (notImplementedMsg FileType.PRICE)

theorem detect_snd_of_fst_ne (wb : Workbook)
    (h : (detectFileType wb).1 ≠ FileType.UNKNOWN) :
    ∃ s, detectFileType wb = ((detectFileType wb).1, some s) := by
  unfold detectFileType at h ⊢
  rcases hf : typeCheckOrder.findSome? (fun t =>
      wb.findSome? (fun s =>
        if (s.2.take 20).any (rowMatchesCode (FILE_TYPE_DEFINITIONS t)) then
          some (t, s.1)
        else none)) with _ | p
  · rw [hf] at h
    exact absurd rfl h
  · rw [hf]
    exact ⟨p.2, rfl⟩

def wbStock : Workbook :=
  [("S".toList,
    [[Cell.cstr "StoreID".toList, Cell.cstr "ItemUID".toList,
      Cell.cstr "Quantity".toList]])]

def wbPrice : Workbook :=
  [("P".toList,
    [[Cell.cstr "ItemUID".toList, Cell.cstr "PriceList".toList,
      Cell.cstr "Price".toList]])]

/-- C9: whenever detection resolves a workbook to `STOCK` or `PRICE`, the
dispatcher fails with the not-yet-implemented error for that type (so such
inputs never yield CSV files), while detection genuinely can resolve
workbooks to these two types, as the concrete header rows of `wbStock` and
`wbPrice` show. -/
theorem c9_stock_price_unimplemented (wb : Workbook) (dateStr : Str)
    (options : CsvGenerationOptions)
    (h : (detectFileType wb).1 = FileType.STOCK
         ∨ (detectFileType wb).1 = FileType.PRICE) :
    generateCsvsFromExcel wb dateStr options
      = Except.error (notImplementedMsg (detectFileType wb).1)
    ∧ detectFileType wbStock = (FileType.STOCK, some "S".toList)
    ∧ detectFileType wbPrice = (FileType.PRICE, some "P".toList) := by
  refine ⟨?_, by decide, by decide⟩
  have hne : (detectFileType wb).1 ≠ FileType.UNKNOWN := by
    rcases h with h | h <;> rw [h] <;> intro hc <;> exact FileType.noConfusion hc
  rcases detect_snd_of_fst_ne wb hne with ⟨s, hs⟩
  unfold generateCsvsFromExcel
  rcases h with h | h
  · rw [h] at hs
    rw [h, hs]
  · rw [h] at hs
    rw [h, hs]

theorem c9_stock_price_unimplemented_witness :
    (detectFileType wbStock).1 = FileType.STOCK
    ∧ generateCsvsFromExcel wbStock [] defaultOptions
        = Except.error (notImplementedMsg FileType.STOCK) :=
  ⟨by decide,
    (c9_stock_price_unimplemented wbStock [] defaultOptions
      (Or.inl (by decide))).1⟩
